import Mathlib

/-!
# erlqueue: the shared-memory byte ring of `c_src/lqueue.c`

A shallow embedding of `lqueue_create`, `lqueue_free`, `lqueue_queue`, `lqueue_dequeue`,
`lqueue_byte_size`, `lqueue_inspect` and `lqueue_release`, followed by the
properties established about them.

Conventions of the embedding.

* The segment's `buffer` is a total map from byte offsets to bytes; an offset
  past `q->size` is memory beyond the segment.  A pointer into the buffer is
  the offset it points at.
* `unsigned int` values are naturals reduced modulo `2^32` where the C code
  truncates; `size_t` is 64 bits wide, and `size_t` arguments are naturals.
* `lqueue.h` is not among the sources: the header layout, the marker macros
  and the status codes are modelled after the specification and marked so.
* `atomic_compare_exchange_weak` may fail spuriously: every call receives the
  outcome of its compare-and-swap as an argument (`true` = the swap landed).
* The recursion of `lqueue_queue` is bounded by a fuel argument; `none` means
  that the fuel ran out before the call returned.
* `shmget` and `shmat` act on the segment that the system keeps under the
  name: `lqueue_create` receives it (`none` when there is none) and returns
  `none` where the C function returns `NULL`; `lqueue_free` returns what the
  system keeps afterwards.
* The `STAT_*` macros only update the statistics block and are left out.
-/

namespace LQueue

/-- One byte of the segment. -/
abbrev Byte := Fin 256

/-! ## The declarations of `lqueue.h` -/

/-- Modelled from the spec: the return codes of `lqueue.h`, a header that is not
among the sources.  `LQUEUE_FULL` stands for the literal `1` that
`lqueue_queue` returns when the ring is full (spec section 9). -/
inductive lqueue_status_t where
  | LQUEUE_OK
  | LQUEUE_FULL
  | LQUEUE_EMPTY
  | LQUEUE_CAS
  deriving DecidableEq, Repr

open lqueue_status_t

/-- Modelled from the spec: `sizeof(header_t)`; `header_t` is declared in
`lqueue.h`, which is not among the sources.  Section 8 of the spec puts the
slot header at 8 bytes: a 4-byte `size` followed by a 4-byte `marker`. -/
@[reducible] def sizeof_header_t : Nat := 8

/-- Modelled from the spec: byte offset of the field `size` inside `header_t`. -/
@[reducible] def header_size_off : Nat := 0

/-- Modelled from the spec: byte offset of the field `marker` inside `header_t`. -/
@[reducible] def header_marker_off : Nat := 4

/-- Modelled from the spec: the macro `VALID_MASK` of `lqueue.h` (not among the
sources), after section 3: the marker is `(offset << 1) | unread_bit` in a
32-bit word, so the validity tag of an offset is the offset shifted left once. -/
def VALID_MASK (offset : Nat) : Nat := (2 * offset) % 2 ^ 32

/-- Modelled from the spec: the macro `SET_UNREAD`, which sets the unread bit
(bit 0) of a marker. -/
def SET_UNREAD (m : Nat) : Nat := 2 * (m / 2) + 1

/-- Modelled from the spec: the macro `SET_READ`, which clears the unread bit
(bit 0) of a marker. -/
def SET_READ (m : Nat) : Nat := 2 * (m / 2)

/-- Modelled from the spec: the macro `IS_VALID`; a marker is valid for an
offset when its tag (the bits above the unread bit) is that offset. -/
def IS_VALID (m offset : Nat) : Bool := decide (m / 2 = offset)

/-- Modelled from the spec: the macro `IS_UNREAD`, the test of bit 0. -/
def IS_UNREAD (m : Nat) : Bool := decide (m % 2 = 1)

/-- Modelled from the spec: the macro `IS_READ`, the negated test of bit 0. -/
def IS_READ (m : Nat) : Bool := decide (m % 2 = 0)

/-- Modelled from the spec: the fields of `lqueue_t` that the operations use
(`name` and `stats` are left out); `buffer` is the flexible array at the end of
the segment. -/
structure lqueue_t where
  head : Nat
  tail : Nat
  size : Nat
  buffer : Nat → Byte

/-! ## Memory primitives -/

/-- Load of a 4-byte unsigned field (host order: little endian) at address `a`. -/
def load_uint (b : Nat → Byte) (a : Nat) : Nat :=
  (b a).val + 256 * (b (a + 1)).val + 65536 * (b (a + 2)).val
    + 16777216 * (b (a + 3)).val

/-- Store of `x`, truncated to 32 bits, into the 4-byte field at address `a`. -/
def store_uint (b : Nat → Byte) (a x : Nat) : Nat → Byte :=
  fun i =>
    if i = a then Fin.ofNat x
    else if i = a + 1 then Fin.ofNat (x / 256)
    else if i = a + 2 then Fin.ofNat (x / 65536)
    else if i = a + 3 then Fin.ofNat (x / 16777216)
    else b i

/-- The call `memcpy(buffer + dst, v, n)`. -/
def memcpy (b : Nat → Byte) (dst : Nat) (v : Nat → Byte) (n : Nat) : Nat → Byte :=
  fun i => if dst ≤ i ∧ i < dst + n then v (i - dst) else b i

/-- The call `memset(buffer + dst, c, n)`. -/
def memset (b : Nat → Byte) (dst : Nat) (c : Byte) (n : Nat) : Nat → Byte :=
  fun i => if dst ≤ i ∧ i < dst + n then c else b i

/-- The marker of the header at `offset`: `atomic_load(&header->marker)`. -/
def header_marker (b : Nat → Byte) (offset : Nat) : Nat :=
  load_uint b (offset + header_marker_off)

/-- The size of the header at `offset`: `atomic_load(&header->size)`. -/
def header_size (b : Nat → Byte) (offset : Nat) : Nat :=
  load_uint b (offset + header_size_off)

/-- The store `atomic_store(&header->marker, m)` for the header at `offset`. -/
def set_header_marker (b : Nat → Byte) (offset m : Nat) : Nat → Byte :=
  store_uint b (offset + header_marker_off) m

/-- The store `atomic_store(&header->size, n)` for the header at `offset`. -/
def set_header_size (b : Nat → Byte) (offset n : Nat) : Nat → Byte :=
  store_uint b (offset + header_size_off) n

/-! ## The operations of `lqueue.c` -/

/-- The shared-memory segment that the system keeps under a name: its length in
bytes and the region it holds. -/
structure segment where
  bytes : Nat
  region : lqueue_t

/-- The calls `shmget(key, len, IPC_CREAT | 0666)` and `shmat` of
`lqueue_create`, on the segment table entry of the name (`none`: no segment
exists).  A missing segment is created with zero bytes; an existing one is
returned as it is, unless it is shorter than `len`, in which case `shmget`
fails.  `granted = false` stands for every other failure of the two calls. -/
def shm_attach (sys : Option segment) (granted : Bool) (len : Nat) : Option segment :=
  if granted = false then none
  else
    match sys with
    | none => some { bytes := len,
                     region := { head := 0, tail := 0, size := 0, buffer := fun _ => 0 } }
    | some s => if len ≤ s.bytes then some s else none

/-- The function `lqueue_create`.  `sizeof_lqueue_t` is the size of the ring
structure of `lqueue.h`; `sys` and `granted` are what the system holds under
the name and whether it grants the request.  The result is `none` where the C
function returns `NULL`; otherwise `head` and `tail` are reset and `size` is
the requested size plus one header (in `size_t` arithmetic); the buffer bytes
of the region are not written. -/
def lqueue_create (sizeof_lqueue_t : Nat) (sys : Option segment) (granted : Bool)
    (size : Nat) : Option lqueue_t :=
  match shm_attach sys granted ((size + sizeof_lqueue_t + sizeof_header_t) % 2 ^ 64) with
  | none => none
  | some s =>
    some { s.region with head := 0, tail := 0, size := (size + sizeof_header_t) % 2 ^ 64 }

/-- The function `lqueue_free` on the segment table entry of the name:
`shmget(key, 0, 0)` finds the segment when there is one, `shmdt` drops the
mapping and `shmctl(IPC_RMID)` removes the segment, after which no segment is
found under the name (also while other processes are still attached). -/
def lqueue_free (_sys : Option segment) (_q : lqueue_t) : Option segment := none

/-- The function `lqueue_queue`.  `cas i` is the outcome of the compare-and-swap
of the `i`-th nested invocation. -/
def lqueue_queue : Nat → (Nat → Bool) → lqueue_t → (Nat → Byte) → Nat →
    Option (lqueue_status_t × lqueue_t)
  | 0, _, _, _, _ => none
  | fuel + 1, cas, q, v, size =>
    let tail := q.tail
    let next_tail0 := (tail + sizeof_header_t + size) % 2 ^ 32
    let wraparound : Bool := decide (next_tail0 + sizeof_header_t > q.size)
    let next_tail := if wraparound then 0 else next_tail0
    if cas 0 = false then some (LQUEUE_CAS, q)
    else
      let q1 : lqueue_t := { q with tail := next_tail }
      if wraparound then
        let b1 := set_header_size q1.buffer tail q1.size
        let b2 := set_header_marker b1 tail (SET_UNREAD (VALID_MASK tail))
        lqueue_queue fuel (fun i => cas (i + 1)) { q1 with buffer := b2 } v size
      else
        let marker := header_marker q1.buffer tail
        if IS_VALID marker tail && IS_UNREAD marker then
          some (LQUEUE_FULL, { q1 with tail := tail })
        else
          let b1 := memcpy q1.buffer (tail + sizeof_header_t) v size
          let b2 := set_header_size b1 tail size
          let b3 := set_header_marker b2 tail (SET_UNREAD (VALID_MASK tail))
          some (LQUEUE_OK, { q1 with buffer := b3 })

/-- The function `lqueue_dequeue`.  `v` and `size` are the values that `*v` and
`*size` hold before the call; the result carries the values they hold after it.
`cas` is the outcome of the compare-and-swap on `head`. -/
def lqueue_dequeue (cas : Bool) (q : lqueue_t) (v size : Nat) :
    lqueue_status_t × lqueue_t × Nat × Nat :=
  let head := q.head
  let tail := q.tail
  let marker := header_marker q.buffer head
  let hsize := header_size q.buffer head
  if head = tail ∧ (IS_VALID marker head = false ∨ IS_READ marker = true) then
    (LQUEUE_EMPTY, q, v, size)
  else if IS_VALID marker head = false ∨ IS_READ marker = true then
    (LQUEUE_EMPTY, q, v, size)
  else
    let next_head0 := (head + sizeof_header_t + hsize) % 2 ^ 32
    let wraparound : Bool := decide (next_head0 > q.size)
    let next_head := if wraparound then 0 else next_head0
    if cas = false then (LQUEUE_CAS, q, v, size)
    else
      let q1 : lqueue_t := { q with head := next_head }
      if wraparound then
        (LQUEUE_CAS,
          { q1 with buffer := set_header_marker q1.buffer head (SET_READ (VALID_MASK head)) },
          v, size)
      else
        let b1 := set_header_size q1.buffer head 0
        let b2 := set_header_marker b1 head 0
        (LQUEUE_OK, { q1 with buffer := b2 }, head + sizeof_header_t, hsize)

/-- The function `lqueue_byte_size`, in `size_t` arithmetic. -/
def lqueue_byte_size (size : Nat) : Nat := (sizeof_header_t + size) % 2 ^ 64

/-- The function `lqueue_inspect`: the marker of the header at `position`. -/
def lqueue_inspect (q : lqueue_t) (position : Nat) : Nat :=
  header_marker q.buffer position

/-- The function `lqueue_release` on a pointer into the buffer of `q`. -/
def lqueue_release (q : lqueue_t) (v size : Nat) : lqueue_t :=
  { q with buffer := memset q.buffer v 0 size }

/-! ## Helpers for stating the properties -/

/-- A shared region whose bytes are all zero, as the system hands out for a
segment that did not exist before. -/
def zero_region : lqueue_t := { head := 0, tail := 0, size := 0, buffer := fun _ => 0 }

/-- The ring that `lqueue_create` returns when no segment exists under the
name and the system grants the request. -/
def fresh (capacity : Nat) : lqueue_t :=
  match lqueue_create 0 none true capacity with
  | some q => q
  | none => zero_region

/-- The payload bytes as the memory `v` points at. -/
def payload (x : List Byte) : Nat → Byte := fun i => x.getD i 0

/-- The `n` bytes of the buffer that start at offset `a`. -/
def read_bytes (b : Nat → Byte) (a n : Nat) : List Byte :=
  (List.range n).map (fun i => b (a + i))

/-- A compare-and-swap that always lands. -/
def cas_ok : Nat → Bool := fun _ => true

/-- Whether the header at offset `o` is valid for `o` and unread: the test of
`lqueue_queue` before it writes, negated in `lqueue_dequeue`. -/
def live (b : Nat → Byte) (o : Nat) : Bool :=
  IS_VALID (header_marker b o) o && IS_UNREAD (header_marker b o)

/-- The wraparound test of `lqueue_queue` for a payload of `size` bytes. -/
def wraps (q : lqueue_t) (size : Nat) : Bool :=
  decide ((q.tail + sizeof_header_t + size) % 2 ^ 32 + sizeof_header_t > q.size)

/-- The ring after the wraparound branch of `lqueue_queue`, before it calls
itself again: `tail` is 0 and the end-of-queue header sits at the old tail. -/
def with_sentinel (q : lqueue_t) : lqueue_t :=
  { q with
    tail := 0
    buffer := set_header_marker (set_header_size q.buffer q.tail q.size) q.tail
      (SET_UNREAD (VALID_MASK q.tail)) }

/-- The ring after the writing branch of `lqueue_queue`: the payload, then the
header size, then the marker, with `tail` moved past the slot. -/
def with_slot (q : lqueue_t) (v : Nat → Byte) (size : Nat) : lqueue_t :=
  { q with
    tail := (q.tail + sizeof_header_t + size) % 2 ^ 32
    buffer := set_header_marker
      (set_header_size (memcpy q.buffer (q.tail + sizeof_header_t) v size) q.tail size)
      q.tail (SET_UNREAD (VALID_MASK q.tail)) }

/-- The wraparound test of `lqueue_dequeue` on the header at `head`. -/
def deq_wraps (q : lqueue_t) : Bool :=
  decide ((q.head + sizeof_header_t + header_size q.buffer q.head) % 2 ^ 32 > q.size)

/-- The ring after `lqueue_dequeue` took its wraparound branch. -/
def sentinel_read (q : lqueue_t) : lqueue_t :=
  { q with
    head := 0
    buffer := set_header_marker q.buffer q.head (SET_READ (VALID_MASK q.head)) }

/-- The ring after `lqueue_dequeue` handed out the slot at `head`. -/
def slot_taken (q : lqueue_t) : lqueue_t :=
  { q with
    head := (q.head + sizeof_header_t + header_size q.buffer q.head) % 2 ^ 32
    buffer := set_header_marker (set_header_size q.buffer q.head 0) q.head 0 }

/-- One call of a sequential client of the ring: an enqueue of a payload, or a
dequeue that is followed by `lqueue_release` when it returns `LQUEUE_OK`. -/
inductive call where
  | queue (x : List Byte)
  | dequeue

/-- What the client sees of one call: the status, and for a dequeue the bytes
handed out (none unless the status is `LQUEUE_OK`). -/
inductive event where
  | queued (s : lqueue_status_t)
  | dequeued (s : lqueue_status_t) (x : List Byte)
  deriving DecidableEq

/-- A sequential run in which every compare-and-swap lands: the final ring and
the events in call order; `none` when a call ran out of fuel. -/
def run (fuel : Nat) : lqueue_t → List call → Option (lqueue_t × List event)
  | q, [] => some (q, [])
  | q, call.queue x :: rest =>
    match lqueue_queue fuel cas_ok q (payload x) x.length with
    | none => none
    | some (s, q') => (run fuel q' rest).map (fun r => (r.1, event.queued s :: r.2))
  | q, call.dequeue :: rest =>
    match lqueue_dequeue true q 0 0 with
    | (LQUEUE_OK, q', v, n) =>
      (run fuel (lqueue_release q' v n) rest).map
        (fun r => (r.1, event.dequeued LQUEUE_OK (read_bytes q'.buffer v n) :: r.2))
    | (s, q', _, _) => (run fuel q' rest).map (fun r => (r.1, event.dequeued s [] :: r.2))

/-- The ring a sequential run ends in (the starting ring when a call ran out of
fuel). -/
def state_after (fuel : Nat) (q : lqueue_t) (calls : List call) : lqueue_t :=
  match run fuel q calls with
  | some (q', _) => q'
  | none => q

/-- The events of a sequential run. -/
def events_of (fuel : Nat) (q : lqueue_t) (calls : List call) : Option (List event) :=
  (run fuel q calls).map (fun r => r.2)

/-- A payload of `n` bytes, each equal to `c`. -/
def fill (n : Nat) (c : Byte) : List Byte := List.replicate n c

/-- The calls that bring a ring created with capacity 64 to the point where
`tail` is 48 and the end-of-queue header written there is still unread. -/
def full_scene : List call :=
  [call.queue (fill 16 1), call.queue (fill 16 2), call.queue (fill 16 3),
   call.dequeue, call.dequeue, call.queue (fill 16 3), call.queue (fill 16 4)]

/-- The ring of `full_scene` after its third call: `tail` is 0 and the first
payload is still unread there. -/
def full_at_zero : lqueue_t :=
  state_after 2 (fresh 64)
    [call.queue (fill 16 1), call.queue (fill 16 2), call.queue (fill 16 3)]

/-- The ring created with capacity 64 after one enqueue of 16 bytes. -/
def one_slot : lqueue_t := state_after 2 (fresh 64) [call.queue (fill 16 1)]

/-- A client that enqueues three 8-byte payloads, takes the first one back and
then enqueues 16 bytes whose second half spells a slot header for offset 16
(size 12, marker `SET_UNREAD(VALID_MASK(16))`), and dequeues again. -/
def overrun_scene : List call :=
  [call.queue (fill 8 1), call.queue (fill 8 2), call.queue (fill 8 3), call.dequeue,
   call.queue (fill 8 9 ++ [12, 0, 0, 0, 33, 0, 0, 0]), call.dequeue]

/-- The 4-byte payload that carries the number `n` (host order). -/
def item (n : Nat) : List Byte := [Fin.ofNat n, Fin.ofNat (n / 256), Fin.ofNat (n / 65536),
  Fin.ofNat (n / 16777216)]

/-- A producer that publishes the items 1 to 5, repeating an item that was
refused, and a consumer that lags behind and finally drains the ring. -/
def lagging_scene : List call :=
  [call.queue (item 1), call.queue (item 2), call.queue (item 3),
   call.dequeue, call.dequeue,
   call.queue (item 3), call.queue (item 4), call.queue (item 5),
   call.dequeue, call.dequeue, call.dequeue, call.dequeue,
   call.queue (item 5),
   call.dequeue, call.dequeue]

/-- The ring created with capacity 64 after two enqueues of 16 bytes: `tail`
is 48 and both payloads are unread. -/
def two_slots : lqueue_t :=
  state_after 2 (fresh 64) [call.queue (fill 16 1), call.queue (fill 16 2)]

/-- The ring `two_slots` after the first payload was dequeued and released. -/
def two_slots_one_taken : lqueue_t :=
  state_after 2 (fresh 64) [call.queue (fill 16 1), call.queue (fill 16 2), call.dequeue]

/-- The buffer of the three-payload scenario after the first enqueue. -/
def scene_b1 (x1 : List Byte) : Nat → Byte :=
  set_header_marker (set_header_size (memcpy (fun _ => 0) 8 (payload x1) 16) 0 16) 0 1

/-- The buffer of the scenario after the second enqueue. -/
def scene_b2 (x1 x2 : List Byte) : Nat → Byte :=
  set_header_marker (set_header_size (memcpy (scene_b1 x1) 32 (payload x2) 16) 24 16) 24 49

/-- The buffer of the scenario after the refused third enqueue. -/
def scene_b3 (x1 x2 : List Byte) : Nat → Byte :=
  set_header_marker (set_header_size (scene_b2 x1 x2) 48 72) 48 97

/-- The buffer of the scenario after the first dequeue. -/
def scene_b4 (x1 x2 : List Byte) : Nat → Byte :=
  set_header_marker (set_header_size (scene_b3 x1 x2) 0 0) 0 0

/-- The buffer of the scenario after the repeated third enqueue. -/
def scene_b5 (x1 x2 x3 : List Byte) : Nat → Byte :=
  set_header_marker
    (set_header_size (memcpy (memset (scene_b4 x1 x2) 8 0 16) 8 (payload x3) 16) 0 16) 0 1

/-- The buffer of the scenario after the second dequeue. -/
def scene_b6 (x1 x2 x3 : List Byte) : Nat → Byte :=
  set_header_marker (set_header_size (scene_b5 x1 x2 x3) 24 0) 24 0

/-- The buffer of the scenario after the dequeue that met the sentinel. -/
def scene_b7 (x1 x2 x3 : List Byte) : Nat → Byte :=
  set_header_marker (memset (scene_b6 x1 x2 x3) 32 0 16) 48 96

/-- Three enqueues in a row. -/
def three_queues (x1 x2 x3 : List Byte) : List call :=
  [call.queue x1, call.queue x2, call.queue x3]

/-- Three enqueues, the third repeated once the first payload was dequeued and
released, and the dequeues that empty the ring. -/
def three_payloads (x1 x2 x3 : List Byte) : List call :=
  [call.queue x1, call.queue x2, call.queue x3, call.dequeue, call.queue x3,
   call.dequeue, call.dequeue, call.dequeue]

/-- One call on the ring together with its arguments: the fuel, the
compare-and-swap outcomes and the payload of an enqueue; the compare-and-swap
outcome and the prior values of the output arguments of a dequeue; the pointer
and size of a release. -/
inductive step where
  | queue (fuel : Nat) (cas : Nat → Bool) (v : Nat → Byte) (size : Nat)
  | dequeue (cas : Bool) (v size : Nat)
  | release (v size : Nat)

/-- The ring after one call, whatever the call returned; `none` when an
enqueue ran out of fuel. -/
def after_step (q : lqueue_t) : step → Option lqueue_t
  | step.queue fuel cas v size => (lqueue_queue fuel cas q v size).map (fun r => r.2)
  | step.dequeue cas v size => some (lqueue_dequeue cas q v size).2.1
  | step.release v size => some (lqueue_release q v size)

/-- The ring after a series of calls. -/
def after_steps : lqueue_t → List step → Option lqueue_t
  | q, [] => some q
  | q, s :: rest =>
    match after_step q s with
    | some q' => after_steps q' rest
    | none => none

/-- The client of `overrun_scene`, except that the header spelled by the last
payload names a size of 48 bytes, which ends the slot exactly at the
effective capacity 72. -/
def runaway_scene : List call :=
  [call.queue (fill 8 1), call.queue (fill 8 2), call.queue (fill 8 3), call.dequeue,
   call.queue (fill 8 9 ++ [48, 0, 0, 0, 33, 0, 0, 0]), call.dequeue]

/-- The status of an event. -/
def status_of : event → lqueue_status_t
  | event.queued s => s
  | event.dequeued s _ => s

/-- The ring created with capacity 64 on which two 16-byte payloads were
enqueued, a third was refused after the wraparound, and the first two were
dequeued and released: `head` is 48, in front of the unread sentinel. -/
def at_sentinel : lqueue_t :=
  state_after 2 (fresh 64)
    [call.queue (fill 16 1), call.queue (fill 16 2), call.queue (fill 16 3),
     call.dequeue, call.dequeue]

/-- The ring that `lqueue_create` returns for capacity 64 when the segment
under the name is 200 bytes long and still holds `one_slot`, a ring with an
unread payload of sixteen bytes (`sizeof(lqueue_t)` taken as 96). -/
def recreated : lqueue_t :=
  match lqueue_create 96 (some { bytes := 200, region := one_slot }) true 64 with
  | some q => q
  | none => zero_region

/-- The client of `overrun_scene` up to its last enqueue, whose payload spells
at offset 16 a header of size `0xfffffff0` with the marker
`SET_UNREAD(VALID_MASK(16))`. -/
def wrapping_header_scene : List call :=
  [call.queue (fill 8 1), call.queue (fill 8 2), call.queue (fill 8 3), call.dequeue,
   call.queue (fill 8 9 ++ [240, 255, 255, 255, 33, 0, 0, 0])]

/-- A ring of 3 GiB (capacity `3 * 2^30 - 8`) on which a payload of `2^30 - 8`
bytes was enqueued, a payload of `2^31` bytes was refused after the wraparound
branch had published the sentinel at offset `2^30`, and the first payload was
dequeued: `head` is at the sentinel. -/
def big_ring_at_sentinel : lqueue_t :=
  match after_steps (fresh (3 * 2 ^ 30 - 8))
      [step.queue 1 cas_ok (fun _ => 0) (2 ^ 30 - 8), step.queue 2 cas_ok (fun _ => 0) (2 ^ 31),
       step.dequeue true 0 0] with
  | some q => q
  | none => zero_region

/-! ## Basic facts about memory and markers -/

theorem ofNat_val (x : Nat) : ((Fin.ofNat x : Byte)).val = x % 256 := rfl

theorem store_uint_outside (b : Nat → Byte) (a x i : Nat) (h : i < a ∨ a + 4 ≤ i) :
    store_uint b a x i = b i := by
  unfold store_uint
  have h0 : i ≠ a := by omega
  have h1 : i ≠ a + 1 := by omega
  have h2 : i ≠ a + 2 := by omega
  have h3 : i ≠ a + 3 := by omega
  simp [h0, h1, h2, h3]

theorem load_uint_congr (b c : Nat → Byte) (a : Nat)
    (h : ∀ i, a ≤ i → i < a + 4 → b i = c i) : load_uint b a = load_uint c a := by
  unfold load_uint
  rw [h a (by omega) (by omega), h (a + 1) (by omega) (by omega),
    h (a + 2) (by omega) (by omega), h (a + 3) (by omega) (by omega)]

theorem load_uint_lt (b : Nat → Byte) (a : Nat) : load_uint b a < 2 ^ 32 := by
  unfold load_uint
  have h0 := (b a).isLt
  have h1 := (b (a + 1)).isLt
  have h2 := (b (a + 2)).isLt
  have h3 := (b (a + 3)).isLt
  omega

theorem load_uint_store_uint (b : Nat → Byte) (a x : Nat) :
    load_uint (store_uint b a x) a = x % 2 ^ 32 := by
  unfold load_uint store_uint
  simp [ofNat_val]
  omega

theorem load_uint_store_uint_disj (b : Nat → Byte) (a x c : Nat) (h : c + 4 ≤ a ∨ a + 4 ≤ c) :
    load_uint (store_uint b a x) c = load_uint b c :=
  load_uint_congr _ _ _ (fun i h1 h2 => store_uint_outside b a x i (by omega))

theorem store_uint_zero (b : Nat → Byte) (a i : Nat) (h1 : a ≤ i) (h2 : i < a + 4) :
    store_uint b a 0 i = 0 := by
  unfold store_uint
  have : i = a ∨ i = a + 1 ∨ i = a + 2 ∨ i = a + 3 := by omega
  rcases this with h | h | h | h <;> subst h <;> simp <;> rfl

theorem memcpy_inside (b : Nat → Byte) (dst : Nat) (v : Nat → Byte) (n i : Nat)
    (h1 : dst ≤ i) (h2 : i < dst + n) : memcpy b dst v n i = v (i - dst) := by
  unfold memcpy; simp [h1, h2]

theorem memcpy_outside (b : Nat → Byte) (dst : Nat) (v : Nat → Byte) (n i : Nat)
    (h : i < dst ∨ dst + n ≤ i) : memcpy b dst v n i = b i := by
  unfold memcpy
  have : ¬ (dst ≤ i ∧ i < dst + n) := by omega
  simp [this]

theorem memset_inside (b : Nat → Byte) (dst : Nat) (c : Byte) (n i : Nat)
    (h1 : dst ≤ i) (h2 : i < dst + n) : memset b dst c n i = c := by
  unfold memset; simp [h1, h2]

theorem memset_outside (b : Nat → Byte) (dst : Nat) (c : Byte) (n i : Nat)
    (h : i < dst ∨ dst + n ≤ i) : memset b dst c n i = b i := by
  unfold memset
  have : ¬ (dst ≤ i ∧ i < dst + n) := by omega
  simp [this]


theorem marker_lt (o : Nat) : SET_UNREAD (VALID_MASK o) < 2 ^ 32 := by
  unfold SET_UNREAD VALID_MASK; omega

theorem marker_read_lt (o : Nat) : SET_READ (VALID_MASK o) < 2 ^ 32 := by
  unfold SET_READ VALID_MASK; omega

theorem is_valid_marker (o : Nat) (h : o < 2 ^ 31) :
    IS_VALID (SET_UNREAD (VALID_MASK o)) o = true := by
  unfold IS_VALID SET_UNREAD VALID_MASK; simp; omega

theorem is_unread_marker (m : Nat) : IS_UNREAD (SET_UNREAD m) = true := by
  unfold IS_UNREAD SET_UNREAD; simp; omega

theorem is_read_marker (m : Nat) : IS_READ (SET_UNREAD m) = false := by
  unfold IS_READ SET_UNREAD; simp; omega

theorem is_read_set_read (m : Nat) : IS_READ (SET_READ m) = true := by
  unfold IS_READ SET_READ; simp

theorem is_unread_zero : IS_UNREAD 0 = false := by decide

theorem is_read_zero : IS_READ 0 = true := by decide

/-! ## The branches of `lqueue_queue` -/

theorem queue_cas_fail (fuel : Nat) (cas : Nat → Bool) (q : lqueue_t) (v : Nat → Byte)
    (size : Nat) (hc : cas 0 = false) :
    lqueue_queue (fuel + 1) cas q v size = some (LQUEUE_CAS, q) := by
  simp [lqueue_queue, hc]

theorem queue_wrap (fuel : Nat) (cas : Nat → Bool) (q : lqueue_t) (v : Nat → Byte)
    (size : Nat) (hc : cas 0 = true) (hw : wraps q size = true) :
    lqueue_queue (fuel + 1) cas q v size
      = lqueue_queue fuel (fun i => cas (i + 1)) (with_sentinel q) v size := by
  simp only [wraps] at hw
  simp only [lqueue_queue, hc, hw, with_sentinel]
  simp

theorem queue_full (fuel : Nat) (cas : Nat → Bool) (q : lqueue_t) (v : Nat → Byte)
    (size : Nat) (hc : cas 0 = true) (hw : wraps q size = false)
    (hl : live q.buffer q.tail = true) :
    lqueue_queue (fuel + 1) cas q v size = some (LQUEUE_FULL, q) := by
  simp only [wraps] at hw
  simp only [live] at hl
  simp only [lqueue_queue, hc, hw, hl]
  simp

theorem queue_ok (fuel : Nat) (cas : Nat → Bool) (q : lqueue_t) (v : Nat → Byte)
    (size : Nat) (hc : cas 0 = true) (hw : wraps q size = false)
    (hl : live q.buffer q.tail = false) :
    lqueue_queue (fuel + 1) cas q v size = some (LQUEUE_OK, with_slot q v size) := by
  simp only [wraps] at hw
  simp only [live] at hl
  simp only [lqueue_queue, hc, hw, hl, with_slot]
  simp

/-! ## The branches of `lqueue_dequeue` -/

theorem is_read_eq (m : Nat) : IS_READ m = !IS_UNREAD m := by
  unfold IS_READ IS_UNREAD
  rcases Nat.mod_two_eq_zero_or_one m with h | h <;> simp [h]

theorem not_live_iff (b : Nat → Byte) (o : Nat) :
    (IS_VALID (header_marker b o) o = false ∨ IS_READ (header_marker b o) = true)
      ↔ live b o = false := by
  unfold live
  rw [is_read_eq]
  cases IS_VALID (header_marker b o) o <;> cases IS_UNREAD (header_marker b o) <;> simp

theorem dequeue_empty (cas : Bool) (q : lqueue_t) (v size : Nat)
    (hl : live q.buffer q.head = false) :
    lqueue_dequeue cas q v size = (LQUEUE_EMPTY, q, v, size) := by
  have h := (not_live_iff q.buffer q.head).mpr hl
  unfold lqueue_dequeue
  simp only [h, and_true, if_true]
  split <;> rfl

theorem dequeue_cas_fail (q : lqueue_t) (v size : Nat)
    (hl : live q.buffer q.head = true) :
    lqueue_dequeue false q v size = (LQUEUE_CAS, q, v, size) := by
  have h : ¬ (IS_VALID (header_marker q.buffer q.head) q.head = false
      ∨ IS_READ (header_marker q.buffer q.head) = true) := by
    rw [not_live_iff, hl]; simp
  unfold lqueue_dequeue
  simp only [h, and_false, if_false]
  simp

theorem dequeue_wrap (q : lqueue_t) (v size : Nat)
    (hl : live q.buffer q.head = true) (hw : deq_wraps q = true) :
    lqueue_dequeue true q v size = (LQUEUE_CAS, sentinel_read q, v, size) := by
  have h : ¬ (IS_VALID (header_marker q.buffer q.head) q.head = false
      ∨ IS_READ (header_marker q.buffer q.head) = true) := by
    rw [not_live_iff, hl]; simp
  simp only [deq_wraps] at hw
  unfold lqueue_dequeue
  simp only [h, and_false, if_false, hw, sentinel_read]
  simp

theorem dequeue_ok (q : lqueue_t) (v size : Nat)
    (hl : live q.buffer q.head = true) (hw : deq_wraps q = false) :
    lqueue_dequeue true q v size
      = (LQUEUE_OK, slot_taken q, q.head + sizeof_header_t, header_size q.buffer q.head) := by
  have h : ¬ (IS_VALID (header_marker q.buffer q.head) q.head = false
      ∨ IS_READ (header_marker q.buffer q.head) = true) := by
    rw [not_live_iff, hl]; simp
  simp only [deq_wraps] at hw
  unfold lqueue_dequeue
  simp only [h, and_false, if_false, hw, slot_taken]
  simp

/-- Every result of `lqueue_dequeue` is one of the four branches. -/
theorem dequeue_cases (cas : Bool) (q : lqueue_t) (v size : Nat) :
    (live q.buffer q.head = false ∧ lqueue_dequeue cas q v size = (LQUEUE_EMPTY, q, v, size))
    ∨ (live q.buffer q.head = true ∧ cas = false
        ∧ lqueue_dequeue cas q v size = (LQUEUE_CAS, q, v, size))
    ∨ (live q.buffer q.head = true ∧ cas = true ∧ deq_wraps q = true
        ∧ lqueue_dequeue cas q v size = (LQUEUE_CAS, sentinel_read q, v, size))
    ∨ (live q.buffer q.head = true ∧ cas = true ∧ deq_wraps q = false
        ∧ lqueue_dequeue cas q v size
          = (LQUEUE_OK, slot_taken q, q.head + sizeof_header_t, header_size q.buffer q.head)) := by
  cases hl : live q.buffer q.head
  · exact Or.inl ⟨rfl, dequeue_empty cas q v size hl⟩
  · cases cas
    · exact Or.inr (Or.inl ⟨rfl, rfl, dequeue_cas_fail q v size hl⟩)
    · cases hw : deq_wraps q
      · exact Or.inr (Or.inr (Or.inr ⟨rfl, rfl, rfl, dequeue_ok q v size hl hw⟩))
      · exact Or.inr (Or.inr (Or.inl ⟨rfl, rfl, rfl, dequeue_wrap q v size hl hw⟩))

/-- Every result of `lqueue_queue` with fuel left is one of its four branches. -/
theorem queue_cases (fuel : Nat) (cas : Nat → Bool) (q : lqueue_t) (v : Nat → Byte)
    (size : Nat) :
    (cas 0 = false ∧ lqueue_queue (fuel + 1) cas q v size = some (LQUEUE_CAS, q))
    ∨ (cas 0 = true ∧ wraps q size = true
        ∧ lqueue_queue (fuel + 1) cas q v size
          = lqueue_queue fuel (fun i => cas (i + 1)) (with_sentinel q) v size)
    ∨ (cas 0 = true ∧ wraps q size = false ∧ live q.buffer q.tail = true
        ∧ lqueue_queue (fuel + 1) cas q v size = some (LQUEUE_FULL, q))
    ∨ (cas 0 = true ∧ wraps q size = false ∧ live q.buffer q.tail = false
        ∧ lqueue_queue (fuel + 1) cas q v size = some (LQUEUE_OK, with_slot q v size)) := by
  cases hc : cas 0
  · exact Or.inl ⟨rfl, queue_cas_fail fuel cas q v size hc⟩
  · cases hw : wraps q size
    · cases hl : live q.buffer q.tail
      · exact Or.inr (Or.inr (Or.inr ⟨rfl, rfl, rfl, queue_ok fuel cas q v size hc hw hl⟩))
      · exact Or.inr (Or.inr (Or.inl ⟨rfl, rfl, rfl, queue_full fuel cas q v size hc hw hl⟩))
    · exact Or.inr (Or.inl ⟨rfl, rfl, queue_wrap fuel cas q v size hc hw⟩)

theorem slot_taken_header_zero (q : lqueue_t) (i : Nat) (h1 : q.head ≤ i)
    (h2 : i < q.head + sizeof_header_t) : (slot_taken q).buffer i = 0 := by
  have h8 : sizeof_header_t = 8 := rfl
  have hm : header_marker_off = 4 := rfl
  have hs : header_size_off = 0 := rfl
  simp only [slot_taken, set_header_marker, set_header_size]
  by_cases h : i < q.head + 4
  · rw [store_uint_outside _ _ _ _ (by omega)]
    exact store_uint_zero _ _ _ (by omega) (by omega)
  · exact store_uint_zero _ _ _ (by omega) (by omega)

theorem slot_taken_outside (q : lqueue_t) (i : Nat)
    (h : i < q.head ∨ q.head + sizeof_header_t ≤ i) :
    (slot_taken q).buffer i = q.buffer i := by
  have h8 : sizeof_header_t = 8 := rfl
  have hm : header_marker_off = 4 := rfl
  have hs : header_size_off = 0 := rfl
  simp only [slot_taken, set_header_marker, set_header_size]
  rw [store_uint_outside _ _ _ _ (by omega), store_uint_outside _ _ _ _ (by omega)]

/-- Increasing the fuel does not change a result that was reached. -/
theorem queue_fuel_mono (fuel : Nat) : ∀ (cas : Nat → Bool) (q : lqueue_t) (v : Nat → Byte)
    (size : Nat) (r : lqueue_status_t × lqueue_t),
    lqueue_queue fuel cas q v size = some r → lqueue_queue (fuel + 1) cas q v size = some r := by
  induction fuel with
  | zero => intro cas q v size r h; simp [lqueue_queue] at h
  | succ n ih =>
    intro cas q v size r h
    rcases queue_cases n cas q v size with ⟨_, e⟩ | ⟨hc, hw, e⟩ | ⟨hc, hw, hl, e⟩ | ⟨hc, hw, hl, e⟩
    · rw [e] at h; rw [queue_cas_fail _ _ _ _ _ (by assumption)]; exact h
    · rw [e] at h; rw [queue_wrap _ _ _ _ _ hc hw]; exact ih _ _ _ _ _ h
    · rw [e] at h; rw [queue_full _ _ _ _ _ hc hw hl]; exact h
    · rw [e] at h; rw [queue_ok _ _ _ _ _ hc hw hl]; exact h

/-! ## Calls that cannot succeed -/

/-- With `tail = 0`, a payload for which the wraparound test holds and
compare-and-swaps that all land, no amount of fuel makes the call return. -/
theorem queue_diverges_at_zero (size : Nat) (v : Nat → Byte) (fuel : Nat) :
    ∀ (q : lqueue_t), q.tail = 0 → wraps q size = true →
      lqueue_queue fuel cas_ok q v size = none := by
  induction fuel with
  | zero => intro q _ _; rfl
  | succ n ih =>
    intro q ht hw
    rw [queue_wrap n cas_ok q v size rfl hw]
    refine ih (with_sentinel q) rfl ?_
    simpa [wraps, with_sentinel, ht] using hw

/-! ## Headers under the stores of the two operations -/

theorem header_marker_set_marker (b : Nat → Byte) (o m : Nat) :
    header_marker (set_header_marker b o m) o = m % 2 ^ 32 :=
  load_uint_store_uint b _ m

theorem header_size_set_size (b : Nat → Byte) (o n : Nat) :
    header_size (set_header_size b o n) o = n % 2 ^ 32 :=
  load_uint_store_uint b _ n

theorem header_marker_set_size (b : Nat → Byte) (o n o' : Nat)
    (h : o' + 8 ≤ o ∨ o ≤ o') : header_marker (set_header_size b o n) o' = header_marker b o' := by
  have hm : header_marker_off = 4 := rfl
  have hs : header_size_off = 0 := rfl
  exact load_uint_store_uint_disj b _ n _ (by omega)

theorem header_size_set_marker (b : Nat → Byte) (o m o' : Nat)
    (h : o' ≤ o ∨ o + 8 ≤ o') : header_size (set_header_marker b o m) o' = header_size b o' := by
  have hm : header_marker_off = 4 := rfl
  have hs : header_size_off = 0 := rfl
  exact load_uint_store_uint_disj b _ m _ (by omega)

theorem header_marker_set_marker_ne (b : Nat → Byte) (o m o' : Nat)
    (h : o' + 4 ≤ o ∨ o + 4 ≤ o') :
    header_marker (set_header_marker b o m) o' = header_marker b o' := by
  have hm : header_marker_off = 4 := rfl
  exact load_uint_store_uint_disj b _ m _ (by omega)

theorem header_size_set_size_ne (b : Nat → Byte) (o n o' : Nat)
    (h : o' + 4 ≤ o ∨ o + 4 ≤ o') :
    header_size (set_header_size b o n) o' = header_size b o' := by
  have hs : header_size_off = 0 := rfl
  exact load_uint_store_uint_disj b _ n _ (by omega)

theorem header_marker_congr (b c : Nat → Byte) (o : Nat)
    (h : ∀ i, o + 4 ≤ i → i < o + 8 → b i = c i) : header_marker b o = header_marker c o := by
  have hm : header_marker_off = 4 := rfl
  exact load_uint_congr b c _ (fun i h1 h2 => h i (by omega) (by omega))

theorem header_size_congr (b c : Nat → Byte) (o : Nat)
    (h : ∀ i, o ≤ i → i < o + 4 → b i = c i) : header_size b o = header_size c o := by
  have hs : header_size_off = 0 := rfl
  exact load_uint_congr b c _ (fun i h1 h2 => h i (by omega) (by omega))

theorem live_congr (b c : Nat → Byte) (o : Nat)
    (h : ∀ i, o + 4 ≤ i → i < o + 8 → b i = c i) : live b o = live c o := by
  unfold live; rw [header_marker_congr b c o h]

theorem set_header_size_outside (b : Nat → Byte) (o n i : Nat) (h : i < o ∨ o + 4 ≤ i) :
    set_header_size b o n i = b i := by
  have hs : header_size_off = 0 := rfl
  exact store_uint_outside b _ n i (by omega)

theorem set_header_marker_outside (b : Nat → Byte) (o m i : Nat) (h : i < o + 4 ∨ o + 8 ≤ i) :
    set_header_marker b o m i = b i := by
  have hm : header_marker_off = 4 := rfl
  exact store_uint_outside b _ m i (by omega)

theorem live_of_marker (b : Nat → Byte) (o : Nat) (ho : o < 2 ^ 31)
    (h : header_marker b o = SET_UNREAD (VALID_MASK o)) : live b o = true := by
  unfold live; rw [h, is_valid_marker o ho, is_unread_marker]; rfl

theorem not_live_of_zero (b : Nat → Byte) (o : Nat)
    (h : ∀ i, o + 4 ≤ i → i < o + 8 → b i = 0) : live b o = false := by
  have hm : header_marker_off = 4 := rfl
  have e : header_marker b o = 0 := by
    unfold header_marker load_uint
    rw [h _ (by omega) (by omega), h _ (by omega) (by omega), h _ (by omega) (by omega),
      h _ (by omega) (by omega)]
    rfl
  unfold live; rw [e, is_unread_zero, Bool.and_false]

/-! ## The ring after each branch -/

theorem with_sentinel_outside (q : lqueue_t) (i : Nat) (h : i < q.tail ∨ q.tail + 8 ≤ i) :
    (with_sentinel q).buffer i = q.buffer i := by
  simp only [with_sentinel]
  rw [set_header_marker_outside _ _ _ _ (by omega), set_header_size_outside _ _ _ _ (by omega)]

theorem with_sentinel_size (q : lqueue_t) :
    header_size (with_sentinel q).buffer q.tail = q.size % 2 ^ 32 := by
  simp only [with_sentinel]
  rw [header_size_set_marker _ _ _ _ (by omega), header_size_set_size]

theorem with_sentinel_marker (q : lqueue_t) :
    header_marker (with_sentinel q).buffer q.tail = SET_UNREAD (VALID_MASK q.tail) := by
  simp only [with_sentinel]
  rw [header_marker_set_marker, Nat.mod_eq_of_lt (marker_lt _)]

theorem with_slot_outside (q : lqueue_t) (v : Nat → Byte) (size i : Nat)
    (h : i < q.tail ∨ q.tail + 8 + size ≤ i) :
    (with_slot q v size).buffer i = q.buffer i := by
  have h8 : sizeof_header_t = 8 := rfl
  simp only [with_slot]
  rw [set_header_marker_outside _ _ _ _ (by omega), set_header_size_outside _ _ _ _ (by omega),
    memcpy_outside _ _ _ _ _ (by omega)]

theorem with_slot_size (q : lqueue_t) (v : Nat → Byte) (size : Nat) :
    header_size (with_slot q v size).buffer q.tail = size % 2 ^ 32 := by
  simp only [with_slot]
  rw [header_size_set_marker _ _ _ _ (by omega), header_size_set_size]

theorem with_slot_marker (q : lqueue_t) (v : Nat → Byte) (size : Nat) :
    header_marker (with_slot q v size).buffer q.tail = SET_UNREAD (VALID_MASK q.tail) := by
  simp only [with_slot]
  rw [header_marker_set_marker, Nat.mod_eq_of_lt (marker_lt _)]

theorem with_slot_payload (q : lqueue_t) (v : Nat → Byte) (size i : Nat) (h : i < size) :
    (with_slot q v size).buffer (q.tail + 8 + i) = v i := by
  have h8 : sizeof_header_t = 8 := rfl
  simp only [with_slot]
  rw [set_header_marker_outside _ _ _ _ (by omega), set_header_size_outside _ _ _ _ (by omega),
    memcpy_inside _ _ _ _ _ (by omega) (by omega)]
  congr 1; omega

/-! ## Slots laid out back to back -/

theorem read_bytes_congr (b c : Nat → Byte) (a n : Nat)
    (h : ∀ i, a ≤ i → i < a + n → b i = c i) : read_bytes b a n = read_bytes c a n := by
  unfold read_bytes
  apply List.map_congr_left
  intro i hi
  rw [List.mem_range] at hi
  exact h (a + i) (by omega) (by omega)

theorem read_bytes_payload (b : Nat → Byte) (a : Nat) (x : List Byte)
    (h : ∀ i, i < x.length → b (a + i) = payload x i) : read_bytes b a x.length = x := by
  unfold read_bytes
  apply List.ext_getElem
  · simp
  · intro n h1 h2
    simp only [List.getElem_map, List.getElem_range]
    rw [h n h2]
    simp [payload, List.getD_eq_getElem?_getD, List.getElem?_eq_getElem h2]

theorem live_eq (b : Nat → Byte) (o m : Nat) (h : header_marker b o = m) :
    live b o = (IS_VALID m o && IS_UNREAD m) := by
  unfold live; rw [h]

theorem scene_read_first (x1 x2 : List Byte) (h1 : x1.length = 16) :
    read_bytes (scene_b4 x1 x2) 8 16 = x1 := by
  have h := read_bytes_payload (scene_b4 x1 x2) 8 x1 (fun i hi => by
    rw [h1] at hi
    simp (disch := omega) only [scene_b4, scene_b3, scene_b2, scene_b1,
      set_header_marker_outside, set_header_size_outside, memcpy_outside, memcpy_inside]
    congr 1; omega)
  rw [h1] at h; exact h

theorem scene_read_first_kept (x1 x2 : List Byte) (h1 : x1.length = 16) :
    read_bytes (scene_b3 x1 x2) 8 16 = x1 := by
  have h := read_bytes_payload (scene_b3 x1 x2) 8 x1 (fun i hi => by
    rw [h1] at hi
    simp (disch := omega) only [scene_b3, scene_b2, scene_b1,
      set_header_marker_outside, set_header_size_outside, memcpy_outside, memcpy_inside]
    congr 1; omega)
  rw [h1] at h; exact h

theorem scene_read_second (x1 x2 x3 : List Byte) (h2 : x2.length = 16) :
    read_bytes (scene_b6 x1 x2 x3) 32 16 = x2 := by
  have h := read_bytes_payload (scene_b6 x1 x2 x3) 32 x2 (fun i hi => by
    rw [h2] at hi
    simp (disch := omega) only [scene_b6, scene_b5, scene_b4, scene_b3, scene_b2,
      set_header_marker_outside, set_header_size_outside, memcpy_outside, memcpy_inside,
      memset_outside]
    congr 1; omega)
  rw [h2] at h; exact h

theorem scene_read_third (x1 x2 x3 : List Byte) (h3 : x3.length = 16) :
    read_bytes (scene_b5 x1 x2 x3) 8 16 = x3 := by
  have h := read_bytes_payload (scene_b5 x1 x2 x3) 8 x3 (fun i hi => by
    rw [h3] at hi
    simp (disch := omega) only [scene_b5,
      set_header_marker_outside, set_header_size_outside, memcpy_outside, memcpy_inside]
    congr 1; omega)
  rw [h3] at h; exact h

theorem scene_read_third_taken (x1 x2 x3 : List Byte) (h3 : x3.length = 16) :
    read_bytes (slot_taken ⟨0, 24, 72, scene_b7 x1 x2 x3⟩).buffer 8 16 = x3 := by
  have e : read_bytes (slot_taken ⟨0, 24, 72, scene_b7 x1 x2 x3⟩).buffer 8 16
      = read_bytes (scene_b5 x1 x2 x3) 8 16 := by
    apply read_bytes_congr
    intro i hi1 hi2
    rw [slot_taken_outside ⟨0, 24, 72, scene_b7 x1 x2 x3⟩ i (Or.inr hi1)]
    simp (disch := omega) only [scene_b7, scene_b6,
      set_header_marker_outside, set_header_size_outside, memset_outside]
  rw [e]; exact scene_read_third x1 x2 x3 h3

theorem scene_steps (x1 x2 x3 : List Byte) :
    lqueue_queue 2 cas_ok (fresh 64) (payload x1) 16
        = some (LQUEUE_OK, ⟨0, 24, 72, scene_b1 x1⟩)
    ∧ lqueue_queue 2 cas_ok ⟨0, 24, 72, scene_b1 x1⟩ (payload x2) 16
        = some (LQUEUE_OK, ⟨0, 48, 72, scene_b2 x1 x2⟩)
    ∧ lqueue_queue 2 cas_ok ⟨0, 48, 72, scene_b2 x1 x2⟩ (payload x3) 16
        = some (LQUEUE_FULL, ⟨0, 0, 72, scene_b3 x1 x2⟩)
    ∧ lqueue_dequeue true ⟨0, 0, 72, scene_b3 x1 x2⟩ 0 0
        = (LQUEUE_OK, ⟨24, 0, 72, scene_b4 x1 x2⟩, 8, 16)
    ∧ lqueue_queue 2 cas_ok (lqueue_release ⟨24, 0, 72, scene_b4 x1 x2⟩ 8 16) (payload x3) 16
        = some (LQUEUE_OK, ⟨24, 24, 72, scene_b5 x1 x2 x3⟩)
    ∧ lqueue_dequeue true ⟨24, 24, 72, scene_b5 x1 x2 x3⟩ 0 0
        = (LQUEUE_OK, ⟨48, 24, 72, scene_b6 x1 x2 x3⟩, 32, 16)
    ∧ lqueue_dequeue true (lqueue_release ⟨48, 24, 72, scene_b6 x1 x2 x3⟩ 32 16) 0 0
        = (LQUEUE_CAS, ⟨0, 24, 72, scene_b7 x1 x2 x3⟩, 0, 0)
    ∧ lqueue_dequeue true ⟨0, 24, 72, scene_b7 x1 x2 x3⟩ 0 0
        = (LQUEUE_OK, slot_taken ⟨0, 24, 72, scene_b7 x1 x2 x3⟩, 8, 16) := by
  refine ⟨?_, ?_, ?_, ?_, ?_, ?_, ?_, ?_⟩
  · exact queue_ok 1 cas_ok (fresh 64) (payload x1) 16 rfl rfl rfl
  · rw [queue_ok 1 cas_ok ⟨0, 24, 72, scene_b1 x1⟩ (payload x2) 16 rfl rfl
      (by rw [live_eq (scene_b1 x1) 24 0 rfl]; rfl)]
    simp [with_slot, scene_b2, VALID_MASK, SET_UNREAD, sizeof_header_t]
  · rw [queue_wrap 1 cas_ok ⟨0, 48, 72, scene_b2 x1 x2⟩ (payload x3) 16 rfl rfl]
    have e : with_sentinel ⟨0, 48, 72, scene_b2 x1 x2⟩ = ⟨0, 0, 72, scene_b3 x1 x2⟩ := by
      simp [with_sentinel, scene_b3, VALID_MASK, SET_UNREAD]
    rw [e, queue_full 0 (fun i => cas_ok (i + 1)) ⟨0, 0, 72, scene_b3 x1 x2⟩ (payload x3) 16
      rfl rfl (by rw [live_eq (scene_b3 x1 x2) 0 1 rfl]; rfl)]
  · have hs : header_size (scene_b3 x1 x2) 0 = 16 := rfl
    rw [dequeue_ok ⟨0, 0, 72, scene_b3 x1 x2⟩ 0 0
      (by rw [live_eq (scene_b3 x1 x2) 0 1 rfl]; rfl) (by simp [deq_wraps, hs, sizeof_header_t])]
    simp [slot_taken, scene_b4, hs, sizeof_header_t]
  · rw [queue_ok 1 cas_ok (lqueue_release ⟨24, 0, 72, scene_b4 x1 x2⟩ 8 16) (payload x3) 16
      rfl rfl (by
        show live (memset (scene_b4 x1 x2) 8 0 16) 0 = false
        rw [live_eq (memset (scene_b4 x1 x2) 8 0 16) 0 0 rfl]; rfl)]
    simp [with_slot, lqueue_release, scene_b5, VALID_MASK, SET_UNREAD, sizeof_header_t]
  · have hs : header_size (scene_b5 x1 x2 x3) 24 = 16 := rfl
    rw [dequeue_ok ⟨24, 24, 72, scene_b5 x1 x2 x3⟩ 0 0
      (by rw [live_eq (scene_b5 x1 x2 x3) 24 49 rfl]; rfl) (by simp [deq_wraps, hs, sizeof_header_t])]
    simp [slot_taken, scene_b6, hs, sizeof_header_t]
  · have hs : header_size (memset (scene_b6 x1 x2 x3) 32 0 16) 48 = 72 := rfl
    rw [dequeue_wrap (lqueue_release ⟨48, 24, 72, scene_b6 x1 x2 x3⟩ 32 16) 0 0
      (by
        show live (memset (scene_b6 x1 x2 x3) 32 0 16) 48 = true
        rw [live_eq (memset (scene_b6 x1 x2 x3) 32 0 16) 48 97 rfl]; rfl)
      (by simp [deq_wraps, lqueue_release, hs, sizeof_header_t])]
    simp [sentinel_read, lqueue_release, scene_b7, VALID_MASK, SET_READ]
  · have hs : header_size (scene_b7 x1 x2 x3) 0 = 16 := rfl
    rw [dequeue_ok ⟨0, 24, 72, scene_b7 x1 x2 x3⟩ 0 0
      (by rw [live_eq (scene_b7 x1 x2 x3) 0 1 rfl]; rfl) (by simp [deq_wraps, hs, sizeof_header_t])]
    simp [hs, sizeof_header_t]

theorem three_queues_run (x1 x2 x3 : List Byte) (h1 : x1.length = 16) (h2 : x2.length = 16)
    (h3 : x3.length = 16) :
    run 2 (fresh 64) (three_queues x1 x2 x3)
      = some (⟨0, 0, 72, scene_b3 x1 x2⟩,
          [event.queued LQUEUE_OK, event.queued LQUEUE_OK, event.queued LQUEUE_FULL]) := by
  obtain ⟨e1, e2, e3, _⟩ := scene_steps x1 x2 x3
  simp only [three_queues, run, h1, h2, h3, e1, e2, e3, Option.map_some']

/-! ## The cursors under arbitrary calls -/

theorem queue_keeps_room (fuel : Nat) :
    ∀ (cas : Nat → Bool) (q : lqueue_t) (v : Nat → Byte) (size : Nat)
      (r : lqueue_status_t × lqueue_t), q.tail + sizeof_header_t ≤ q.size →
      lqueue_queue fuel cas q v size = some r →
      r.2.tail + sizeof_header_t ≤ r.2.size ∧ r.2.size = q.size ∧ r.2.head = q.head := by
  induction fuel with
  | zero => intro cas q v size r _ h; simp [lqueue_queue] at h
  | succ n ih =>
    intro cas q v size r hq h
    have h8 : sizeof_header_t = 8 := rfl
    rcases queue_cases n cas q v size with ⟨_, e⟩ | ⟨_, _, e⟩ | ⟨_, _, _, e⟩ | ⟨_, hw, _, e⟩
    · rw [e] at h; cases h; exact ⟨hq, rfl, rfl⟩
    · rw [e] at h
      have hs : (with_sentinel q).tail + sizeof_header_t ≤ (with_sentinel q).size := by
        show 0 + sizeof_header_t ≤ q.size
        omega
      exact ih _ (with_sentinel q) v size r hs h
    · rw [e] at h; cases h; exact ⟨hq, rfl, rfl⟩
    · rw [e] at h; cases h
      simp only [wraps, decide_eq_false_iff_not, not_lt] at hw
      exact ⟨hw, rfl, rfl⟩

theorem dequeue_keeps_tail (cas : Bool) (q : lqueue_t) (v size : Nat) :
    (lqueue_dequeue cas q v size).2.1.tail = q.tail
    ∧ (lqueue_dequeue cas q v size).2.1.size = q.size := by
  rcases dequeue_cases cas q v size with ⟨_, e⟩ | ⟨_, _, e⟩ | ⟨_, _, _, e⟩ | ⟨_, _, _, e⟩ <;>
    rw [e] <;> exact ⟨rfl, rfl⟩

theorem step_keeps_room (q q' : lqueue_t) (s : step)
    (hq : q.tail + sizeof_header_t ≤ q.size) (h : after_step q s = some q') :
    q'.tail + sizeof_header_t ≤ q'.size ∧ q'.size = q.size := by
  cases s with
  | queue fuel cas v size =>
    simp only [after_step, Option.map_eq_some'] at h
    obtain ⟨r, hr, e⟩ := h
    subst e
    exact ⟨(queue_keeps_room fuel cas q v size r hq hr).1,
      (queue_keeps_room fuel cas q v size r hq hr).2.1⟩
  | dequeue cas v size =>
    simp only [after_step, Option.some.injEq] at h
    subst h
    rw [(dequeue_keeps_tail cas q v size).1, (dequeue_keeps_tail cas q v size).2]
    exact ⟨hq, rfl⟩
  | release v size =>
    simp only [after_step, Option.some.injEq] at h
    subst h
    exact ⟨hq, rfl⟩

theorem steps_keep_room (steps : List step) :
    ∀ (q q' : lqueue_t), q.tail + sizeof_header_t ≤ q.size → after_steps q steps = some q' →
      q'.tail + sizeof_header_t ≤ q'.size ∧ q'.size = q.size := by
  induction steps with
  | nil =>
    intro q q' hq h
    simp only [after_steps, Option.some.injEq] at h
    subst h; exact ⟨hq, rfl⟩
  | cons s rest ih =>
    intro q q' hq h
    simp only [after_steps] at h
    split at h
    · rename_i q1 e
      have h1 := step_keeps_room q q1 s hq e
      have h2 := ih q1 q' h1.1 h
      exact ⟨h2.1, h2.2.trans h1.2⟩
    · cases h

/-! ## C1: first in, first out on a new ring -/

/-- C2 fails in the code: in `overrun_scene` every enqueue returns
`LQUEUE_OK`, and the second dequeue returns `LQUEUE_OK` with 12 bytes (eight
bytes of the second payload followed by four header bytes) that no enqueue
was given as a payload. -/
theorem dequeue_returns_unqueued_bytes :
    events_of 2 (fresh 64) overrun_scene
      = some [event.queued LQUEUE_OK, event.queued LQUEUE_OK, event.queued LQUEUE_OK,
          event.dequeued LQUEUE_OK (fill 8 1), event.queued LQUEUE_OK,
          event.dequeued LQUEUE_OK (fill 8 2 ++ [8, 0, 0, 0])]
    ∧ fill 8 2 ++ [8, 0, 0, 0]
        ∉ [fill 8 1, fill 8 2, fill 8 3, fill 8 9 ++ [12, 0, 0, 0, 33, 0, 0, 0]] := by
  decide

/-! ## C3: a refused enqueue -/

/-- C3, as stated, fails: in a reachable ring whose header at `tail = 48` is
valid for 48 and unread, the enqueue of a 16-byte payload returns the full
status but leaves `tail` at 0, not at 48. -/
theorem full_after_wraparound_moves_tail :
    (state_after 2 (fresh 64) full_scene).tail = 48
    ∧ (IS_VALID (header_marker (state_after 2 (fresh 64) full_scene).buffer 48) 48
        && IS_UNREAD (header_marker (state_after 2 (fresh 64) full_scene).buffer 48)) = true
    ∧ (lqueue_queue 2 cas_ok (state_after 2 (fresh 64) full_scene)
          (payload (fill 16 5)) 16).map (fun r => (r.1, r.2.tail))
        = some (LQUEUE_FULL, 0) := by
  decide

/-- C3, amended: when the header at `tail` is valid for `tail` and unread and
the payload size does not trigger the wraparound branch, an enqueue whose
compare-and-swap lands returns the full status and leaves the whole ring
(`head`, `tail`, `size` and every buffer byte) as it was. -/
theorem full_is_side_effect_free (fuel : Nat) (cas : Nat → Bool) (q : lqueue_t)
    (v : Nat → Byte) (size : Nat) (hc : cas 0 = true)
    (hv : IS_VALID (header_marker q.buffer q.tail) q.tail = true)
    (hu : IS_UNREAD (header_marker q.buffer q.tail) = true)
    (hw : (q.tail + sizeof_header_t + size) % 2 ^ 32 + sizeof_header_t ≤ q.size) :
    lqueue_queue (fuel + 1) cas q v size = some (LQUEUE_FULL, q) := by
  apply queue_full fuel cas q v size hc
  · simp only [wraps, decide_eq_false_iff_not]; omega
  · simp [live, hv, hu]

/-- C3, amended, at a ring that is full at `tail = 0`. -/
theorem full_is_side_effect_free_witness :
    lqueue_queue 1 cas_ok full_at_zero (payload (fill 16 3)) 16
      = some (LQUEUE_FULL, full_at_zero) :=
  full_is_side_effect_free 0 cas_ok full_at_zero (payload (fill 16 3)) 16 rfl
    (by decide) (by decide) (by decide)

/-! ## C4: an enqueue that does not return -/

/-- C4 fails in the code: on a ring created with capacity 64 the enqueue of a
65-byte payload, with every compare-and-swap landing, does not return whatever
the number of nested invocations allowed. -/
theorem queue_oversized_never_returns (fuel : Nat) :
    lqueue_queue fuel cas_ok (fresh 64) (payload (fill 65 1)) 65 = none :=
  queue_diverges_at_zero 65 _ fuel (fresh 64) rfl (by decide)

/-! ## C5: the empty ring -/

/-- C5: `lqueue_dequeue` returns `LQUEUE_EMPTY` exactly when the marker at
`head` is not valid for `head` or is marked read (whatever `tail` is), and it
returns `LQUEUE_EMPTY` exactly when it returns with the ring (`head`, `tail`,
every buffer byte) and the output arguments unchanged. -/
theorem dequeue_empty_iff (cas : Bool) (q : lqueue_t) (v size : Nat) :
    ((lqueue_dequeue cas q v size).1 = LQUEUE_EMPTY
      ↔ (IS_VALID (header_marker q.buffer q.head) q.head = false
          ∨ IS_READ (header_marker q.buffer q.head) = true))
    ∧ ((lqueue_dequeue cas q v size).1 = LQUEUE_EMPTY
      ↔ lqueue_dequeue cas q v size = (LQUEUE_EMPTY, q, v, size)) := by
  rw [not_live_iff]
  rcases dequeue_cases cas q v size with ⟨hl, e⟩ | ⟨hl, _, e⟩ | ⟨hl, _, _, e⟩ | ⟨hl, _, _, e⟩
  · rw [e]; simp [hl]
  · rw [e]; simp [hl]
  · rw [e]; simp [hl]
  · rw [e]; simp [hl]

/-! ## C6: consuming and releasing a slot -/

/-- C6: when `lqueue_dequeue` returns `LQUEUE_OK` for the slot at `head`, the
pointer is `head + sizeof(header_t)` and the size is the header's; after
`lqueue_release` of that pointer and size every byte of the slot, header and
payload, is zero, and neither call changes a byte outside the slot. -/
theorem consume_release_scrubs (cas : Bool) (q q' : lqueue_t) (v0 n0 v n : Nat)
    (h : lqueue_dequeue cas q v0 n0 = (LQUEUE_OK, q', v, n)) :
    v = q.head + sizeof_header_t ∧ n = header_size q.buffer q.head
    ∧ (∀ i, q.head ≤ i → i < q.head + sizeof_header_t + n →
        (lqueue_release q' v n).buffer i = 0)
    ∧ (∀ i, i < q.head ∨ q.head + sizeof_header_t + n ≤ i →
        q'.buffer i = q.buffer i ∧ (lqueue_release q' v n).buffer i = q.buffer i) := by
  rcases dequeue_cases cas q v0 n0 with ⟨_, e⟩ | ⟨_, _, e⟩ | ⟨_, _, _, e⟩ | ⟨_, _, _, e⟩
  · rw [e] at h; simp at h
  · rw [e] at h; simp at h
  · rw [e] at h; simp at h
  · rw [e] at h
    simp only [Prod.mk.injEq, true_and] at h
    obtain ⟨hq, hv, hn⟩ := h
    subst hq hv hn
    refine ⟨rfl, rfl, ?_, ?_⟩
    · intro i h1 h2
      simp only [lqueue_release]
      by_cases hi : i < q.head + sizeof_header_t
      · rw [memset_outside _ _ _ _ _ (Or.inl hi)]
        exact slot_taken_header_zero q i h1 hi
      · exact memset_inside _ _ _ _ _ (by omega) (by omega)
    · intro i hi
      have e1 : (slot_taken q).buffer i = q.buffer i := slot_taken_outside q i (by omega)
      refine ⟨e1, ?_⟩
      simp only [lqueue_release]
      rw [memset_outside _ _ _ _ _ (by omega)]
      exact e1

/-- C6 on the ring that holds one 16-byte payload: the dequeue hands out
offset 8 and size 16, the first and the last byte of the slot are zero after
the release, and the byte after the slot is untouched. -/
theorem consume_release_scrubs_witness :
    8 = one_slot.head + sizeof_header_t ∧ 16 = header_size one_slot.buffer one_slot.head
    ∧ (lqueue_release (slot_taken one_slot) 8 16).buffer 0 = 0
    ∧ (lqueue_release (slot_taken one_slot) 8 16).buffer 23 = 0
    ∧ (lqueue_release (slot_taken one_slot) 8 16).buffer 24 = one_slot.buffer 24 :=
  (fun h => ⟨h.1, h.2.1, h.2.2.1 0 (by decide) (by decide),
      h.2.2.1 23 (by decide) (by decide), (h.2.2.2 24 (by decide)).2⟩)
    (consume_release_scrubs true one_slot (slot_taken one_slot) 0 0 8 16
      (dequeue_ok one_slot 0 0 (by decide) (by decide)))

/-! ## C7: an enqueue that ends exactly at the capacity -/

/-- C7, as stated, fails.  On `two_slots` a 16-byte payload ends exactly at the
effective capacity 72, and the call returns the full status with the first
payload still at offset 8; on a ring created with capacity 16 a 16-byte payload
ends exactly at the effective capacity 24, and the call never returns. -/
theorem boundary_enqueue_not_ok :
    two_slots.tail + sizeof_header_t + 16 = two_slots.size
    ∧ (lqueue_queue 2 cas_ok two_slots (payload (fill 16 3)) 16).map
        (fun r => (r.1, r.2.tail, read_bytes r.2.buffer 8 16)) = some (LQUEUE_FULL, 0, fill 16 1)
    ∧ (fresh 16).tail + sizeof_header_t + 16 = (fresh 16).size
    ∧ ∀ fuel, lqueue_queue fuel cas_ok (fresh 16) (payload (fill 16 3)) 16 = none :=
  ⟨by decide, by decide, by decide,
    fun fuel => queue_diverges_at_zero 16 _ fuel (fresh 16) rfl (by decide)⟩

/-- C7, amended: on a ring whose effective capacity is below `2^32`, with
`tail` at least one header into the buffer and `tail + sizeof(header_t) + size`
equal to the effective capacity, an enqueue whose compare-and-swaps land takes
the wraparound branch (`with_sentinel`: `tail` is 0 and the header at the old
tail holds the effective capacity and the marker
`SET_UNREAD(VALID_MASK(old tail))`); the nested call returns the full status
when the header at offset 0 is valid and unread, and otherwise stores the
payload at offset 0 and returns `LQUEUE_OK`. -/
theorem wraparound_at_exact_boundary (fuel : Nat) (cas : Nat → Bool) (q : lqueue_t)
    (v : Nat → Byte) (size : Nat) (hc0 : cas 0 = true) (hc1 : cas 1 = true)
    (hcap : q.size < 2 ^ 32) (hb : q.tail + sizeof_header_t + size = q.size)
    (ht : sizeof_header_t ≤ q.tail) :
    (with_sentinel q).tail = 0
    ∧ header_size (with_sentinel q).buffer q.tail = q.size
    ∧ header_marker (with_sentinel q).buffer q.tail = SET_UNREAD (VALID_MASK q.tail)
    ∧ lqueue_queue (fuel + 2) cas q v size
        = (if live q.buffer 0 = true then some (LQUEUE_FULL, with_sentinel q)
           else some (LQUEUE_OK, with_slot (with_sentinel q) v size))
    ∧ (with_slot (with_sentinel q) v size).tail = sizeof_header_t + size
    ∧ header_size (with_slot (with_sentinel q) v size).buffer 0 = size
    ∧ header_marker (with_slot (with_sentinel q) v size).buffer 0 = SET_UNREAD (VALID_MASK 0)
    ∧ ∀ i, i < size → (with_slot (with_sentinel q) v size).buffer (sizeof_header_t + i) = v i := by
  have h8 : sizeof_header_t = 8 := rfl
  have hw : wraps q size = true := by
    simp only [wraps, decide_eq_true_eq]
    rw [hb, Nat.mod_eq_of_lt hcap]; omega
  have ht0 : (with_sentinel q).tail = 0 := rfl
  have hs0 : (with_sentinel q).size = q.size := rfl
  have hw' : wraps (with_sentinel q) size = false := by
    simp only [wraps, decide_eq_false_iff_not, ht0, hs0]
    rw [Nat.mod_eq_of_lt (by omega)]; omega
  have hl : live (with_sentinel q).buffer 0 = live q.buffer 0 :=
    live_congr _ _ _ (fun i _ _ => with_sentinel_outside q i (by omega))
  refine ⟨rfl, ?_, with_sentinel_marker q, ?_, ?_, ?_, ?_, ?_⟩
  · rw [with_sentinel_size, Nat.mod_eq_of_lt hcap]
  · rw [queue_wrap _ cas q v size hc0 hw]
    cases hq : live q.buffer 0
    · rw [queue_ok fuel _ _ v size hc1 hw' (by rw [ht0, hl, hq])]; simp
    · rw [queue_full fuel _ _ v size hc1 hw' (by rw [ht0, hl, hq])]; simp
  · show (0 + sizeof_header_t + size) % 2 ^ 32 = sizeof_header_t + size
    rw [Nat.mod_eq_of_lt (by omega)]; omega
  · have := with_slot_size (with_sentinel q) v size
    rw [ht0] at this
    rw [this, Nat.mod_eq_of_lt (by omega)]
  · have := with_slot_marker (with_sentinel q) v size
    rw [ht0] at this
    exact this
  · intro i hi
    have := with_slot_payload (with_sentinel q) v size i hi
    rw [ht0] at this
    rw [← this]

/-- C7, amended, on `two_slots_one_taken`: the third 16-byte payload wraps
around and is stored at offset 0. -/
theorem wraparound_at_exact_boundary_witness :
    lqueue_queue 2 cas_ok two_slots_one_taken (payload (fill 16 3)) 16
      = (if live two_slots_one_taken.buffer 0 = true
          then some (LQUEUE_FULL, with_sentinel two_slots_one_taken)
          else some (LQUEUE_OK, with_slot (with_sentinel two_slots_one_taken)
            (payload (fill 16 3)) 16)) :=
  (wraparound_at_exact_boundary 0 cas_ok two_slots_one_taken (payload (fill 16 3)) 16 rfl rfl
    (by decide) (by decide) (by decide)).2.2.2.1

/-! ## C8: three 16-byte payloads on a ring of capacity 64 -/

/-- C8, as stated, fails: on a ring created with capacity 64 the third enqueue
of 16 bytes publishes the sentinel but returns the full status, its payload
does not land at offset 0 (the first payload is still there), and the third of
three dequeues meets the sentinel instead of returning the third payload. -/
theorem third_enqueue_is_refused :
    events_of 2 (fresh 64)
        (three_queues (fill 16 1) (fill 16 2) (fill 16 3)
          ++ [call.dequeue, call.dequeue, call.dequeue])
      = some [event.queued LQUEUE_OK, event.queued LQUEUE_OK, event.queued LQUEUE_FULL,
          event.dequeued LQUEUE_OK (fill 16 1), event.dequeued LQUEUE_OK (fill 16 2),
          event.dequeued LQUEUE_CAS []]
    ∧ read_bytes (state_after 2 (fresh 64)
        (three_queues (fill 16 1) (fill 16 2) (fill 16 3))).buffer 8 16 = fill 16 1 := by
  decide

/-- C8, amended: on a ring created with capacity 64 (8-byte header), for any
three 16-byte payloads, the first two enqueues return `LQUEUE_OK` and the third
publishes a sentinel at offset 48 (size 72, marker `SET_UNREAD(VALID_MASK(48))`),
sets `tail` to 0 and returns the full status, leaving the first payload at
offset 8.  Once the first payload was dequeued and released, the repeated third
enqueue returns `LQUEUE_OK` and its payload lands at offset 0; the dequeues
return the three payloads in enqueue order, with one `LQUEUE_CAS` at the
sentinel before the third. -/
theorem three_payload_scenario (x1 x2 x3 : List Byte) (h1 : x1.length = 16)
    (h2 : x2.length = 16) (h3 : x3.length = 16) :
    events_of 2 (fresh 64) (three_queues x1 x2 x3)
      = some [event.queued LQUEUE_OK, event.queued LQUEUE_OK, event.queued LQUEUE_FULL]
    ∧ (state_after 2 (fresh 64) (three_queues x1 x2 x3)).tail = 0
    ∧ header_size (state_after 2 (fresh 64) (three_queues x1 x2 x3)).buffer 48 = 72
    ∧ header_marker (state_after 2 (fresh 64) (three_queues x1 x2 x3)).buffer 48
        = SET_UNREAD (VALID_MASK 48)
    ∧ read_bytes (state_after 2 (fresh 64) (three_queues x1 x2 x3)).buffer 8 16 = x1
    ∧ events_of 2 (fresh 64) (three_payloads x1 x2 x3)
      = some [event.queued LQUEUE_OK, event.queued LQUEUE_OK, event.queued LQUEUE_FULL,
          event.dequeued LQUEUE_OK x1, event.queued LQUEUE_OK,
          event.dequeued LQUEUE_OK x2, event.dequeued LQUEUE_CAS [],
          event.dequeued LQUEUE_OK x3]
    ∧ read_bytes (state_after 2 (fresh 64)
        (three_queues x1 x2 x3 ++ [call.dequeue, call.queue x3])).buffer 8 16 = x3 := by
  obtain ⟨e1, e2, e3, e4, e5, e6, e7, e8⟩ := scene_steps x1 x2 x3
  have r3 := three_queues_run x1 x2 x3 h1 h2 h3
  refine ⟨?_, ?_, ?_, ?_, ?_, ?_, ?_⟩
  · simp only [events_of, r3, Option.map_some']
  · simp only [state_after, r3]
  · simp only [state_after, r3]; rfl
  · simp only [state_after, r3]; rfl
  · simp only [state_after, r3]; exact scene_read_first_kept x1 x2 h1
  · simp only [events_of, three_payloads, run, h1, h2, h3, e1, e2, e3, e4, e5, e6, e7, e8,
      Option.map_some', scene_read_first x1 x2 h1, scene_read_second x1 x2 x3 h2,
      scene_read_third_taken x1 x2 x3 h3]
  · simp only [state_after, three_queues, List.cons_append, List.nil_append, run, h1, h2, h3,
      e1, e2, e3, e4, e5, Option.map_some']
    exact scene_read_third x1 x2 x3 h3

/-- C8, amended, on the payloads sixteen times 1, 2 and 3. -/
theorem three_payload_scenario_witness :
    events_of 2 (fresh 64) (three_payloads (fill 16 1) (fill 16 2) (fill 16 3))
      = some [event.queued LQUEUE_OK, event.queued LQUEUE_OK, event.queued LQUEUE_FULL,
          event.dequeued LQUEUE_OK (fill 16 1), event.queued LQUEUE_OK,
          event.dequeued LQUEUE_OK (fill 16 2), event.dequeued LQUEUE_CAS [],
          event.dequeued LQUEUE_OK (fill 16 3)] :=
  (three_payload_scenario (fill 16 1) (fill 16 2) (fill 16 3) rfl rfl rfl).2.2.2.2.2.1

/-! ## C9: recovery from a full ring -/

/-- C10 fails in the code: in `lagging_scene` on a ring created with capacity
24 all five items are enqueued and the consumer drains the ring until
`lqueue_dequeue` returns `LQUEUE_EMPTY`, yet it has received only the items 1
to 4; item 5 stays unread at offset 0. -/
theorem lagging_consumer_misses_item :
    events_of 2 (fresh 24) lagging_scene
      = some [event.queued LQUEUE_OK, event.queued LQUEUE_OK, event.queued LQUEUE_FULL,
          event.dequeued LQUEUE_OK (item 1), event.dequeued LQUEUE_OK (item 2),
          event.queued LQUEUE_OK, event.queued LQUEUE_OK, event.queued LQUEUE_FULL,
          event.dequeued LQUEUE_CAS [], event.dequeued LQUEUE_OK (item 3),
          event.dequeued LQUEUE_OK (item 4), event.dequeued LQUEUE_EMPTY [],
          event.queued LQUEUE_OK,
          event.dequeued LQUEUE_EMPTY [], event.dequeued LQUEUE_EMPTY []]
    ∧ live (state_after 2 (fresh 24) lagging_scene).buffer 0 = true
    ∧ read_bytes (state_after 2 (fresh 24) lagging_scene).buffer 8 4 = item 5 := by
  decide

/-! ## C11: room for the end-of-queue header -/

/-- C11: on a ring created with a capacity `N` for which `N + sizeof(header_t)`
does not overflow `size_t`, after any series of `lqueue_queue`,
`lqueue_dequeue` and `lqueue_release` calls, with any arguments and whatever
each call returns, `tail + sizeof(header_t)` is at most the effective capacity
`N + sizeof(header_t)`: a header fits between `tail` and the end of the
buffer. -/
theorem sentinel_room_reserved (N : Nat) (steps : List step) (q : lqueue_t)
    (hN : N + sizeof_header_t < 2 ^ 64) (h : after_steps (fresh N) steps = some q) :
    q.size = N + sizeof_header_t ∧ q.tail + sizeof_header_t ≤ q.size ∧ q.tail ≤ N := by
  have h8 : sizeof_header_t = 8 := rfl
  have hs : (fresh N).size = N + sizeof_header_t := by
    show (N + sizeof_header_t) % 2 ^ 64 = N + sizeof_header_t
    exact Nat.mod_eq_of_lt hN
  have h0 : (fresh N).tail + sizeof_header_t ≤ (fresh N).size := by
    rw [hs]; show 0 + sizeof_header_t ≤ _; omega
  obtain ⟨h1, h2⟩ := steps_keep_room steps (fresh N) q h0 h
  rw [hs] at h2
  exact ⟨h2, h1, by omega⟩

/-- C11 on a ring created with capacity 64, after the enqueue of 16 bytes. -/
theorem sentinel_room_reserved_witness :
    (with_slot (fresh 64) (payload (fill 16 1)) 16).size = 64 + sizeof_header_t
    ∧ (with_slot (fresh 64) (payload (fill 16 1)) 16).tail + sizeof_header_t
        ≤ (with_slot (fresh 64) (payload (fill 16 1)) 16).size
    ∧ (with_slot (fresh 64) (payload (fill 16 1)) 16).tail ≤ 64 :=
  sentinel_room_reserved 64 [step.queue 1 cas_ok (payload (fill 16 1)) 16]
    (with_slot (fresh 64) (payload (fill 16 1)) 16) (by decide) rfl

/-! ## C12: the consumer's cursor -/

/-- C12 fails in the code: in `runaway_scene`, on a ring created with capacity
64, every payload has a footprint of at most 24 bytes and every enqueue returns
`LQUEUE_OK`; the second dequeue returns `LQUEUE_OK` and leaves `head` at 72,
the effective capacity, which is not an offset inside the buffer. -/
theorem head_leaves_buffer :
    (events_of 2 (fresh 64) runaway_scene).map (fun es => es.map status_of)
      = some [LQUEUE_OK, LQUEUE_OK, LQUEUE_OK, LQUEUE_OK, LQUEUE_OK, LQUEUE_OK]
    ∧ (state_after 2 (fresh 64) runaway_scene).head = 72
    ∧ (state_after 2 (fresh 64) runaway_scene).size = 72 := by
  decide

/-! ## C13: what `lqueue_create` returns -/

/-- C13, as stated, fails.  On a segment that still holds the unread payload
of `one_slot`, `lqueue_create` returns a ring with `head = tail = 0` whose
buffer is not zero (byte 0 is 16) and on which an immediately following
`lqueue_dequeue` returns `LQUEUE_OK` with the old payload.  On an existing
segment of 64 bytes, `lqueue_create` with capacity 100000 returns no ring. -/
theorem create_keeps_old_slots :
    (lqueue_create 96 (some { bytes := 200, region := one_slot }) true 64).isSome = true
    ∧ recreated.head = 0 ∧ recreated.tail = 0 ∧ recreated.buffer 0 = 16
    ∧ (lqueue_dequeue true recreated 0 0).1 = LQUEUE_OK
    ∧ read_bytes (lqueue_dequeue true recreated 0 0).2.1.buffer
        (lqueue_dequeue true recreated 0 0).2.2.1
        (lqueue_dequeue true recreated 0 0).2.2.2 = fill 16 1
    ∧ (lqueue_create 96 (some { bytes := 64, region := zero_region }) true 100000).isSome
        = false := by
  decide

theorem create_refused (L N : Nat) (sys : Option segment) :
    lqueue_create L sys false N = none := rfl

theorem create_new (L N : Nat) :
    lqueue_create L none true N
      = some { head := 0, tail := 0, size := (N + sizeof_header_t) % 2 ^ 64,
               buffer := fun _ => 0 } := rfl

theorem create_existing (L N : Nat) (s : segment)
    (h : (N + L + sizeof_header_t) % 2 ^ 64 ≤ s.bytes) :
    lqueue_create L (some s) true N
      = some { s.region with head := 0, tail := 0, size := (N + sizeof_header_t) % 2 ^ 64 } := by
  unfold lqueue_create shm_attach
  rw [if_neg (by decide)]
  simp only [if_pos h]

theorem create_short (L N : Nat) (s : segment)
    (h : ¬ (N + L + sizeof_header_t) % 2 ^ 64 ≤ s.bytes) :
    lqueue_create L (some s) true N = none := by
  unfold lqueue_create shm_attach
  rw [if_neg (by decide)]
  simp only [if_neg h]

/-- C13, amended: let the sums `N + sizeof(lqueue_t) + sizeof(header_t)` not
overflow `size_t`.  `lqueue_create` returns `NULL` when the system does not
grant the segment or the segment under the name is shorter than the request.
Every ring it returns has `head = 0`, `tail = 0`, effective capacity
`N + sizeof(header_t)` and the buffer bytes that the segment held before.
When no segment existed under the name (also after `lqueue_free`: create,
destroy, create) or the bytes of the segment were zero, every buffer byte is
zero and an immediately following `lqueue_dequeue` returns `LQUEUE_EMPTY` and
changes nothing. -/
theorem create_on_zeroed_region (L N : Nat) (sys : Option segment) (granted cas : Bool)
    (v n : Nat) (hN : N + L + sizeof_header_t < 2 ^ 64) :
    (granted = false → lqueue_create L sys granted N = none)
    ∧ (∀ s, sys = some s → s.bytes < N + L + sizeof_header_t →
        lqueue_create L sys granted N = none)
    ∧ (∀ q, lqueue_create L sys granted N = some q →
        q.head = 0 ∧ q.tail = 0 ∧ q.size = N + sizeof_header_t
        ∧ (∀ s, sys = some s → ∀ i, q.buffer i = s.region.buffer i)
        ∧ ((sys = none ∨ ∃ s, sys = some s ∧ ∀ i, s.region.buffer i = 0) →
            (∀ i, q.buffer i = 0)
            ∧ lqueue_dequeue cas q v n = (LQUEUE_EMPTY, q, v, n)))
    ∧ (∀ q0, lqueue_create L (lqueue_free sys q0) true N = some (fresh N)) := by
  have h8 : sizeof_header_t = 8 := rfl
  have hlen : (N + L + sizeof_header_t) % 2 ^ 64 = N + L + sizeof_header_t :=
    Nat.mod_eq_of_lt hN
  have hsz : (N + sizeof_header_t) % 2 ^ 64 = N + sizeof_header_t :=
    Nat.mod_eq_of_lt (by omega)
  refine ⟨?_, ?_, ?_, ?_⟩
  · intro hg
    rw [hg]; rfl
  · intro s hs hlt
    subst hs
    cases granted
    · rfl
    · exact create_short L N s (by rw [hlen]; omega)
  · intro q hq
    cases granted with
    | false => rw [create_refused] at hq; cases hq
    | true =>
      cases sys with
      | none =>
        rw [create_new] at hq
        cases hq
        refine ⟨rfl, rfl, hsz, ?_, ?_⟩
        · intro s hs; cases hs
        · intro _
          exact ⟨fun _ => rfl,
            dequeue_empty cas _ v n (not_live_of_zero _ _ (fun _ _ _ => rfl))⟩
      | some s =>
        by_cases hle : (N + L + sizeof_header_t) % 2 ^ 64 ≤ s.bytes
        · rw [create_existing L N s hle] at hq
          cases hq
          refine ⟨rfl, rfl, hsz, ?_, ?_⟩
          · intro t ht; cases ht; intro i; rfl
          · intro hz
            rcases hz with hz | ⟨t, ht, hz⟩
            · cases hz
            · cases ht
              exact ⟨hz, dequeue_empty cas _ v n (not_live_of_zero _ _ (fun i _ _ => hz i))⟩
        · rw [create_short L N s hle] at hq; cases hq
  · intro q0
    rfl

/-- C13, amended, for capacity 64 when no segment exists: the ring has the
effective capacity 72 and the dequeue that follows returns `LQUEUE_EMPTY`. -/
theorem create_on_zeroed_region_witness :
    (fresh 64).size = 64 + sizeof_header_t
    ∧ lqueue_dequeue true (fresh 64) 0 0 = (LQUEUE_EMPTY, fresh 64, 0, 0) :=
  (fun h => ⟨(h.2.2.1 (fresh 64) rfl).2.2.1,
      ((h.2.2.1 (fresh 64) rfl).2.2.2.2 (Or.inl rfl)).2⟩)
    (create_on_zeroed_region 96 64 none true true 0 0 (by decide))

/-! ## C14: a marker belongs to one offset -/

/-- C14: for offsets `o1 ≠ o2` below an effective capacity of at most `2^31`,
the marker `SET_UNREAD(VALID_MASK(o1))` is not valid for `o2`; a header at `o2`
that carries it is not a live slot: `lqueue_dequeue` at `head = o2` returns
`LQUEUE_EMPTY`, and a non-wrapping `lqueue_queue` at `tail = o2` whose
compare-and-swap lands does not return the full status but writes its slot. -/
theorem marker_bound_to_offset (cap o1 o2 : Nat) (hcap : cap ≤ 2 ^ 31) (h1 : o1 < cap)
    (_h2 : o2 < cap) (hne : o1 ≠ o2) :
    IS_VALID (SET_UNREAD (VALID_MASK o1)) o2 = false
    ∧ (∀ (q : lqueue_t) (cas : Bool) (v n : Nat), q.head = o2 →
        header_marker q.buffer o2 = SET_UNREAD (VALID_MASK o1) →
        lqueue_dequeue cas q v n = (LQUEUE_EMPTY, q, v, n))
    ∧ (∀ (q : lqueue_t) (fuel : Nat) (cas : Nat → Bool) (v : Nat → Byte) (size : Nat),
        q.tail = o2 → header_marker q.buffer o2 = SET_UNREAD (VALID_MASK o1) →
        cas 0 = true → wraps q size = false →
        lqueue_queue (fuel + 1) cas q v size = some (LQUEUE_OK, with_slot q v size)) := by
  have hv : IS_VALID (SET_UNREAD (VALID_MASK o1)) o2 = false := by
    unfold IS_VALID SET_UNREAD VALID_MASK
    simp only [decide_eq_false_iff_not]
    omega
  have hl : ∀ b : Nat → Byte, header_marker b o2 = SET_UNREAD (VALID_MASK o1) →
      live b o2 = false := by
    intro b hb
    unfold live
    rw [hb, hv, Bool.false_and]
  refine ⟨hv, ?_, ?_⟩
  · intro q cas v n hh hm
    exact dequeue_empty cas q v n (by rw [hh]; exact hl _ hm)
  · intro q fuel cas v size ht hm hc hw
    exact queue_ok fuel cas q v size hc hw (by rw [ht]; exact hl _ hm)

/-- C14 on the ring of capacity 72: the marker published at offset 0 is not
valid for offset 24. -/
theorem marker_bound_to_offset_witness :
    IS_VALID (SET_UNREAD (VALID_MASK 0)) 24 = false :=
  (marker_bound_to_offset 72 0 24 (by decide) (by decide) (by decide) (by decide)).1

/-! ## C15: the footprint of a payload -/

/-- C15, as stated, fails: on a new ring of capacity `2^32` the enqueue of
`2^32 - 4` bytes does not take the wraparound branch and returns `LQUEUE_OK`;
it moves `tail` from 0 to 4, while `lqueue_byte_size` of that size is
`2^32 + 4`. -/
theorem tail_advance_truncated :
    wraps (fresh (2 ^ 32)) (2 ^ 32 - 4) = false
    ∧ (fresh (2 ^ 32)).tail = 0
    ∧ (lqueue_queue 1 cas_ok (fresh (2 ^ 32)) (fun _ => 0) (2 ^ 32 - 4)).map
        (fun r => (r.1, r.2.tail)) = some (LQUEUE_OK, 4)
    ∧ lqueue_byte_size (2 ^ 32 - 4) = 2 ^ 32 + 4 := by
  decide

/-- C15, amended: `lqueue_byte_size(n)` equals `sizeof(header_t) + n` for every
`n` for which the sum does not overflow `size_t`; an `lqueue_queue` that does
not take the wraparound branch and returns `LQUEUE_OK` advances `tail` by
`lqueue_byte_size(n)` in `unsigned int` arithmetic, and by exactly
`lqueue_byte_size(n)` when `tail + sizeof(header_t) + n` is below `2^32`. -/
theorem byte_size_is_tail_advance (n fuel : Nat) (cas : Nat → Bool) (q q' : lqueue_t)
    (v : Nat → Byte) (hw : wraps q n = false)
    (h : lqueue_queue fuel cas q v n = some (LQUEUE_OK, q')) :
    (sizeof_header_t + n < 2 ^ 64 → lqueue_byte_size n = sizeof_header_t + n)
    ∧ q'.tail = (q.tail + lqueue_byte_size n) % 2 ^ 32
    ∧ (q.tail + sizeof_header_t + n < 2 ^ 32 → q'.tail = q.tail + lqueue_byte_size n) := by
  have h8 : sizeof_header_t = 8 := rfl
  have ht : q'.tail = (q.tail + sizeof_header_t + n) % 2 ^ 32 := by
    cases fuel with
    | zero => simp [lqueue_queue] at h
    | succ k =>
      rcases queue_cases k cas q v n with ⟨_, e⟩ | ⟨_, hw', _⟩ | ⟨_, _, _, e⟩ | ⟨_, _, _, e⟩
      · rw [e] at h; cases h
      · rw [hw] at hw'; cases hw'
      · rw [e] at h; cases h
      · rw [e] at h; cases h; rfl
  have hb : lqueue_byte_size n = (sizeof_header_t + n) % 2 ^ 64 := rfl
  refine ⟨fun hlt => by rw [hb, Nat.mod_eq_of_lt hlt], ?_, ?_⟩
  · rw [ht, hb]; omega
  · intro hlt
    rw [ht, hb]; omega

/-- C15, amended, on a new ring of capacity 64: the enqueue of 16 bytes moves
`tail` from 0 to `lqueue_byte_size(16)`, which is 24. -/
theorem byte_size_is_tail_advance_witness :
    lqueue_byte_size 16 = 24
    ∧ (with_slot (fresh 64) (payload (fill 16 1)) 16).tail
        = (fresh 64).tail + lqueue_byte_size 16 :=
  (fun h => ⟨h.1 (by decide), h.2.2 (by decide)⟩)
    (byte_size_is_tail_advance 16 1 cas_ok (fresh 64)
      (with_slot (fresh 64) (payload (fill 16 1)) 16) (payload (fill 16 1)) rfl rfl)

/-! ## C16: an enqueue that does not wrap around -/

/-- C16, as stated, fails: on a new ring of capacity `2^32 + 8` (effective
capacity `2^32 + 16`) a payload of `2^32` bytes satisfies
`tail + 2 * sizeof(header_t) + size ≤ effective capacity` and the header at
`tail = 0` is free; the enqueue returns `LQUEUE_OK` but leaves `tail` at 8 and
stores 0 as the header size. -/
theorem enqueue_postcondition_truncated :
    (fresh (2 ^ 32 + 8)).tail + 2 * sizeof_header_t + 2 ^ 32 ≤ (fresh (2 ^ 32 + 8)).size
    ∧ live (fresh (2 ^ 32 + 8)).buffer (fresh (2 ^ 32 + 8)).tail = false
    ∧ (lqueue_queue 1 cas_ok (fresh (2 ^ 32 + 8)) (fun _ => 0) (2 ^ 32)).map
        (fun r => (r.1, r.2.tail, header_size r.2.buffer 0)) = some (LQUEUE_OK, 8, 0) := by
  decide

/-- C16, amended: on a ring whose effective capacity is at most `2^32`, when
`tail + 2 * sizeof(header_t) + size` is at most the effective capacity and the
header at `tail` is not valid for `tail` and unread, an `lqueue_queue` whose
compare-and-swap lands returns `LQUEUE_OK`; afterwards `tail` has advanced by
`sizeof(header_t) + size`, the header at the old tail holds `size` and the
marker `SET_UNREAD(VALID_MASK(old tail))`, the `size` bytes after it are the
payload, and `head`, `size` and every buffer byte outside the slot are
unchanged. -/
theorem enqueue_postcondition (fuel : Nat) (cas : Nat → Bool) (q : lqueue_t)
    (v : Nat → Byte) (size : Nat) (hc : cas 0 = true) (hcap : q.size ≤ 2 ^ 32)
    (hroom : q.tail + 2 * sizeof_header_t + size ≤ q.size)
    (hfree : (IS_VALID (header_marker q.buffer q.tail) q.tail
      && IS_UNREAD (header_marker q.buffer q.tail)) = false) :
    lqueue_queue (fuel + 1) cas q v size = some (LQUEUE_OK, with_slot q v size)
    ∧ (with_slot q v size).tail = q.tail + sizeof_header_t + size
    ∧ header_size (with_slot q v size).buffer q.tail = size
    ∧ header_marker (with_slot q v size).buffer q.tail = SET_UNREAD (VALID_MASK q.tail)
    ∧ (∀ i, i < size → (with_slot q v size).buffer (q.tail + sizeof_header_t + i) = v i)
    ∧ (with_slot q v size).head = q.head ∧ (with_slot q v size).size = q.size
    ∧ ∀ i, i < q.tail ∨ q.tail + sizeof_header_t + size ≤ i →
        (with_slot q v size).buffer i = q.buffer i := by
  have h8 : sizeof_header_t = 8 := rfl
  have hlt : q.tail + sizeof_header_t + size < 2 ^ 32 := by omega
  have hw : wraps q size = false := by
    simp only [wraps, decide_eq_false_iff_not, not_lt]
    rw [Nat.mod_eq_of_lt hlt]; omega
  refine ⟨queue_ok fuel cas q v size hc hw hfree, ?_, ?_, with_slot_marker q v size,
    fun i hi => with_slot_payload q v size i hi, rfl, rfl,
    fun i hi => with_slot_outside q v size i hi⟩
  · show (q.tail + sizeof_header_t + size) % 2 ^ 32 = _
    exact Nat.mod_eq_of_lt hlt
  · rw [with_slot_size, Nat.mod_eq_of_lt (by omega)]

/-- C16, amended, on a new ring of capacity 64 and a payload of sixteen bytes. -/
theorem enqueue_postcondition_witness :
    lqueue_queue 1 cas_ok (fresh 64) (payload (fill 16 1)) 16
        = some (LQUEUE_OK, with_slot (fresh 64) (payload (fill 16 1)) 16)
    ∧ (with_slot (fresh 64) (payload (fill 16 1)) 16).tail
        = (fresh 64).tail + sizeof_header_t + 16 :=
  (fun h => ⟨h.1, h.2.1⟩)
    (enqueue_postcondition 0 cas_ok (fresh 64) (payload (fill 16 1)) 16 rfl (by decide)
      (by decide) (by decide))

/-! ## C17: a dequeue that finds the sentinel -/

/-- C17, as stated, fails: after `wrapping_header_scene` on a ring created with
capacity 64 the header at `head = 16` is valid for 16 and unread and its size
is `0xfffffff0`, so `head + sizeof(header_t) + size` exceeds the effective
capacity 72; `next_head` is that sum reduced to 8, and `lqueue_dequeue` returns
`LQUEUE_OK` with `head = 8`. -/
theorem sentinel_test_truncated :
    (state_after 2 (fresh 64) wrapping_header_scene).head = 16
    ∧ live (state_after 2 (fresh 64) wrapping_header_scene).buffer 16 = true
    ∧ header_size (state_after 2 (fresh 64) wrapping_header_scene).buffer 16 = 4294967280
    ∧ (state_after 2 (fresh 64) wrapping_header_scene).size = 72
    ∧ (lqueue_dequeue true (state_after 2 (fresh 64) wrapping_header_scene) 0 0).1 = LQUEUE_OK
    ∧ (lqueue_dequeue true (state_after 2 (fresh 64) wrapping_header_scene) 0 0).2.1.head
        = 8 := by
  decide

/-- C17, amended: when the header at `head` is valid for `head` and unread,
`head + sizeof(header_t) + header.size` exceeds the effective capacity and
fits an `unsigned int`, an `lqueue_dequeue` whose compare-and-swap lands
returns `LQUEUE_CAS`, sets `head` to 0 and the marker at the old head to
`SET_READ(VALID_MASK(old head))`, and leaves `tail`, `size`, the header's size
field, every other buffer byte and the output arguments unchanged. -/
theorem sentinel_consumed (q : lqueue_t) (v n : Nat)
    (hv : IS_VALID (header_marker q.buffer q.head) q.head = true)
    (hu : IS_UNREAD (header_marker q.buffer q.head) = true)
    (hover : q.size < q.head + sizeof_header_t + header_size q.buffer q.head)
    (hfit : q.head + sizeof_header_t + header_size q.buffer q.head < 2 ^ 32) :
    lqueue_dequeue true q v n = (LQUEUE_CAS, sentinel_read q, v, n)
    ∧ (sentinel_read q).head = 0
    ∧ header_marker (sentinel_read q).buffer q.head = SET_READ (VALID_MASK q.head)
    ∧ (sentinel_read q).tail = q.tail ∧ (sentinel_read q).size = q.size
    ∧ header_size (sentinel_read q).buffer q.head = header_size q.buffer q.head
    ∧ ∀ i, i < q.head + header_marker_off ∨ q.head + sizeof_header_t ≤ i →
        (sentinel_read q).buffer i = q.buffer i := by
  have h8 : sizeof_header_t = 8 := rfl
  have hm : header_marker_off = 4 := rfl
  have hl : live q.buffer q.head = true := by simp [live, hv, hu]
  have hw : deq_wraps q = true := by
    simp only [deq_wraps, decide_eq_true_eq]
    rw [Nat.mod_eq_of_lt hfit]; exact hover
  refine ⟨dequeue_wrap q v n hl hw, rfl, ?_, rfl, rfl, ?_, ?_⟩
  · simp only [sentinel_read]
    rw [header_marker_set_marker, Nat.mod_eq_of_lt (marker_read_lt _)]
  · simp only [sentinel_read]
    exact header_size_set_marker _ _ _ _ (Or.inl (Nat.le_refl _))
  · intro i hi
    simp only [sentinel_read]
    exact set_header_marker_outside _ _ _ _ (by omega)

/-- C17, amended, on `at_sentinel`: the dequeue at `head = 48` consumes the sentinel. -/
theorem sentinel_consumed_witness :
    lqueue_dequeue true at_sentinel 0 0 = (LQUEUE_CAS, sentinel_read at_sentinel, 0, 0)
    ∧ (sentinel_read at_sentinel).head = 0 :=
  (fun h => ⟨h.1, h.2.1⟩)
    (sentinel_consumed at_sentinel 0 0 (by decide) (by decide) (by decide) (by decide))

/-! ## C18: the two wraparound tests -/

/-- C18, as stated, fails.  On `big_ring_at_sentinel` the sentinel published
by `lqueue_queue` at offset `2^30` holds the effective capacity `3 * 2^30`,
yet `lqueue_dequeue` at that head does not take the wraparound branch: it
returns `LQUEUE_OK` with `head = 8`.  On a new ring of capacity `2^32` the
non-wrapping enqueue of `2^32 - 4` bytes returns `LQUEUE_OK` for a slot with
`0 + sizeof(header_t) + size` above the effective capacity minus a header. -/
theorem sentinel_agreement_truncated :
    big_ring_at_sentinel.head = 2 ^ 30
    ∧ big_ring_at_sentinel.size = 3 * 2 ^ 30
    ∧ live big_ring_at_sentinel.buffer (2 ^ 30) = true
    ∧ header_size big_ring_at_sentinel.buffer (2 ^ 30) = 3 * 2 ^ 30
    ∧ (lqueue_dequeue true big_ring_at_sentinel 0 0).1 = LQUEUE_OK
    ∧ (lqueue_dequeue true big_ring_at_sentinel 0 0).2.1.head = 8
    ∧ wraps (fresh (2 ^ 32)) (2 ^ 32 - 4) = false
    ∧ (lqueue_queue 1 cas_ok (fresh (2 ^ 32)) (fun _ => 0) (2 ^ 32 - 4)).map
        (fun r => r.1) = some LQUEUE_OK
    ∧ ¬ (0 + sizeof_header_t + (2 ^ 32 - 4) ≤ (fresh (2 ^ 32)).size - sizeof_header_t) := by
  decide

/-- The two wraparound tests on the states that the branches of
`lqueue_queue` leave, for effective capacities below `2^31`: the header that
`with_sentinel` stores sends `lqueue_dequeue` into its wraparound branch, the
header that `with_slot` stores does not. -/
theorem wrap_tests_on_states (p q : lqueue_t) (v : Nat → Byte) (size v0 n0 : Nat)
    (hp : p.size < 2 ^ 31) (hpt : p.tail + sizeof_header_t ≤ p.size)
    (hq : q.size < 2 ^ 31) (hqt : q.tail + sizeof_header_t ≤ q.size)
    (hw : wraps q size = false) :
    header_size (with_sentinel p).buffer p.tail = p.size
    ∧ lqueue_dequeue true { with_sentinel p with head := p.tail } v0 n0
        = (LQUEUE_CAS, sentinel_read { with_sentinel p with head := p.tail }, v0, n0)
    ∧ (q.tail + sizeof_header_t + size < 2 ^ 32 →
        q.tail + sizeof_header_t + size + sizeof_header_t ≤ q.size)
    ∧ lqueue_dequeue true { with_slot q v size with head := q.tail } v0 n0
        = (LQUEUE_OK, slot_taken { with_slot q v size with head := q.tail },
            q.tail + sizeof_header_t, size % 2 ^ 32)
    ∧ (slot_taken { with_slot q v size with head := q.tail }).head
        = (with_slot q v size).tail := by
  have h8 : sizeof_header_t = 8 := rfl
  simp only [wraps, decide_eq_false_iff_not, not_lt] at hw
  have hps : header_size (with_sentinel p).buffer p.tail = p.size := by
    rw [with_sentinel_size, Nat.mod_eq_of_lt (by omega)]
  have hqs : header_size (with_slot q v size).buffer q.tail = size % 2 ^ 32 :=
    with_slot_size q v size
  have hmod : (q.tail + sizeof_header_t + size % 2 ^ 32) % 2 ^ 32
      = (q.tail + sizeof_header_t + size) % 2 ^ 32 := by omega
  refine ⟨hps, ?_, ?_, ?_, ?_⟩
  · apply dequeue_wrap
    · exact live_of_marker _ p.tail (by omega) (with_sentinel_marker p)
    · show decide ((p.tail + sizeof_header_t + header_size (with_sentinel p).buffer p.tail)
        % 2 ^ 32 > p.size) = true
      rw [hps, Nat.mod_eq_of_lt (by omega)]
      simp only [decide_eq_true_eq]; omega
  · intro hfit
    rw [Nat.mod_eq_of_lt hfit] at hw; exact hw
  · have hd := dequeue_ok { with_slot q v size with head := q.tail } v0 n0
      (live_of_marker _ q.tail (by omega) (with_slot_marker q v size))
      (by
        show decide ((q.tail + sizeof_header_t
          + header_size (with_slot q v size).buffer q.tail) % 2 ^ 32 > q.size) = false
        rw [hqs, hmod]
        simp only [decide_eq_false_iff_not, not_lt]; omega)
    rw [hd]
    show (LQUEUE_OK, _, q.tail + sizeof_header_t,
      header_size (with_slot q v size).buffer q.tail) = _
    rw [hqs]
  · show (q.tail + sizeof_header_t + header_size (with_slot q v size).buffer q.tail) % 2 ^ 32
      = (q.tail + sizeof_header_t + size) % 2 ^ 32
    rw [hqs, hmod]

/-- C18, amended: let the effective capacity be below `2^31`, `tail` leave
room for a header, and the compare-and-swap of `lqueue_queue` land.  When the
call takes its wraparound branch it publishes at `tail` a header whose size is
the effective capacity and calls itself on that state; an `lqueue_dequeue`
with `head` at that offset takes its wraparound branch, on that state and on
every state the call returns when the payload written at offset 0 ends before
the sentinel.  When the call does not wrap and the header at `tail = o` is
free, it returns `LQUEUE_OK` with the slot published at `o`; the slot ends at
least one header before the effective capacity when `o + sizeof(header_t) +
size` fits an `unsigned int`, and an `lqueue_dequeue` with `head = o` does not
take its wraparound branch: it returns `LQUEUE_OK` and moves `head` to the
`tail` that the enqueue produced. -/
theorem producer_consumer_agree (fuel : Nat) (cas : Nat → Bool) (q : lqueue_t)
    (v : Nat → Byte) (size v0 n0 : Nat) (hc : cas 0 = true) (hq : q.size < 2 ^ 31)
    (hqt : q.tail + sizeof_header_t ≤ q.size) :
    (wraps q size = true →
        lqueue_queue (fuel + 1) cas q v size
          = lqueue_queue fuel (fun i => cas (i + 1)) (with_sentinel q) v size
        ∧ header_size (with_sentinel q).buffer q.tail = q.size
        ∧ lqueue_dequeue true { with_sentinel q with head := q.tail } v0 n0
            = (LQUEUE_CAS, sentinel_read { with_sentinel q with head := q.tail }, v0, n0)
        ∧ (∀ s r, lqueue_queue (fuel + 1) cas q v size = some (s, r) →
            sizeof_header_t + size ≤ q.tail →
            header_size r.buffer q.tail = q.size
            ∧ lqueue_dequeue true { r with head := q.tail } v0 n0
                = (LQUEUE_CAS, sentinel_read { r with head := q.tail }, v0, n0)))
    ∧ (wraps q size = false → live q.buffer q.tail = false →
        lqueue_queue (fuel + 1) cas q v size = some (LQUEUE_OK, with_slot q v size)
        ∧ (q.tail + sizeof_header_t + size < 2 ^ 32 →
            q.tail + sizeof_header_t + size ≤ q.size - sizeof_header_t)
        ∧ lqueue_dequeue true { with_slot q v size with head := q.tail } v0 n0
            = (LQUEUE_OK, slot_taken { with_slot q v size with head := q.tail },
                q.tail + sizeof_header_t, size % 2 ^ 32)
        ∧ (slot_taken { with_slot q v size with head := q.tail }).head
            = (with_slot q v size).tail) := by
  have h8 : sizeof_header_t = 8 := rfl
  refine ⟨fun hw => ?_, fun hw hl => ?_⟩
  · have hs := wrap_tests_on_states q (fresh 64) v 16 v0 n0 hq hqt (by decide) (by decide) rfl
    have key : ∀ r : lqueue_t, r.size = q.size →
        header_size r.buffer q.tail = q.size →
        header_marker r.buffer q.tail = SET_UNREAD (VALID_MASK q.tail) →
        lqueue_dequeue true { r with head := q.tail } v0 n0
          = (LQUEUE_CAS, sentinel_read { r with head := q.tail }, v0, n0) := by
      intro r hrs hsz hmk
      apply dequeue_wrap
      · exact live_of_marker _ q.tail (by omega) hmk
      · show decide ((q.tail + sizeof_header_t + header_size r.buffer q.tail) % 2 ^ 32
          > r.size) = true
        rw [hsz, hrs, Nat.mod_eq_of_lt (by omega)]
        simp only [decide_eq_true_eq]; omega
    refine ⟨queue_wrap fuel cas q v size hc hw, hs.1, hs.2.1, ?_⟩
    intro s r h hfit
    rw [queue_wrap fuel cas q v size hc hw] at h
    have hnw : wraps (with_sentinel q) size = false := by
      show decide ((0 + sizeof_header_t + size) % 2 ^ 32 + sizeof_header_t > q.size) = false
      rw [Nat.mod_eq_of_lt (by omega)]
      simp only [decide_eq_false_iff_not, not_lt]; omega
    have hr : r = with_sentinel q ∨ r = with_slot (with_sentinel q) v size := by
      cases fuel with
      | zero => simp [lqueue_queue] at h
      | succ k =>
        rcases queue_cases k (fun i => cas (i + 1)) (with_sentinel q) v size with
          ⟨_, e⟩ | ⟨_, hw', _⟩ | ⟨_, _, _, e⟩ | ⟨_, _, _, e⟩
        · rw [e] at h; cases h; exact Or.inl rfl
        · rw [hnw] at hw'; cases hw'
        · rw [e] at h; cases h; exact Or.inl rfl
        · rw [e] at h; cases h; exact Or.inr rfl
    have hout : ∀ i, q.tail ≤ i →
        (with_slot (with_sentinel q) v size).buffer i = (with_sentinel q).buffer i := by
      intro i hi
      apply with_slot_outside
      right
      show 0 + 8 + size ≤ i
      omega
    rcases hr with e | e
    · subst e
      exact ⟨hs.1, key (with_sentinel q) rfl hs.1 (with_sentinel_marker q)⟩
    · subst e
      have hsz : header_size (with_slot (with_sentinel q) v size).buffer q.tail = q.size := by
        rw [header_size_congr _ (with_sentinel q).buffer q.tail
          (fun i h1 _ => hout i h1)]
        exact hs.1
      have hmk : header_marker (with_slot (with_sentinel q) v size).buffer q.tail
          = SET_UNREAD (VALID_MASK q.tail) := by
        rw [header_marker_congr _ (with_sentinel q).buffer q.tail
          (fun i h1 _ => hout i (by omega))]
        exact with_sentinel_marker q
      exact ⟨hsz, key _ rfl hsz hmk⟩
  · have hs := wrap_tests_on_states q q v size v0 n0 hq hqt hq hqt hw
    refine ⟨queue_ok fuel cas q v size hc hw hl, ?_, hs.2.2.2.1, hs.2.2.2.2⟩
    intro hfit
    have := hs.2.2.1 hfit
    omega

/-- C18, amended, on rings of capacity 64: the enqueue of 16 bytes on
`two_slots` publishes the sentinel at offset 48 and returns `LQUEUE_FULL`, and
the dequeue at head 48 of the returned ring takes the wraparound branch; the
slot published at offset 0 of a new ring is handed out by the dequeue, which
moves `head` to the enqueue's `tail`. -/
theorem producer_consumer_agree_witness :
    header_size (with_sentinel two_slots).buffer two_slots.tail = two_slots.size
    ∧ lqueue_queue 2 cas_ok two_slots (payload (fill 16 3)) 16
        = some (LQUEUE_FULL, with_sentinel two_slots)
    ∧ lqueue_dequeue true { with_sentinel two_slots with head := two_slots.tail } 0 0
        = (LQUEUE_CAS,
            sentinel_read { with_sentinel two_slots with head := two_slots.tail }, 0, 0)
    ∧ lqueue_queue 1 cas_ok (fresh 64) (payload (fill 16 1)) 16
        = some (LQUEUE_OK, with_slot (fresh 64) (payload (fill 16 1)) 16)
    ∧ (slot_taken { with_slot (fresh 64) (payload (fill 16 1)) 16 with
          head := (fresh 64).tail }).head
        = (with_slot (fresh 64) (payload (fill 16 1)) 16).tail :=
  ⟨((producer_consumer_agree 1 cas_ok two_slots (payload (fill 16 3)) 16 0 0 rfl
        (by decide) (by decide)).1 (by decide)).2.1,
   (queue_wrap 1 cas_ok two_slots (payload (fill 16 3)) 16 rfl (by decide)).trans
      (queue_full 0 cas_ok (with_sentinel two_slots) (payload (fill 16 3)) 16 rfl
        (by decide) (by decide)),
   (((producer_consumer_agree 1 cas_ok two_slots (payload (fill 16 3)) 16 0 0 rfl
        (by decide) (by decide)).1 (by decide)).2.2.2 LQUEUE_FULL (with_sentinel two_slots)
      ((queue_wrap 1 cas_ok two_slots (payload (fill 16 3)) 16 rfl (by decide)).trans
        (queue_full 0 cas_ok (with_sentinel two_slots) (payload (fill 16 3)) 16 rfl
          (by decide) (by decide)))
      (by decide)).2,
   ((producer_consumer_agree 0 cas_ok (fresh 64) (payload (fill 16 1)) 16 0 0 rfl
        (by decide) (by decide)).2 (by decide) (by decide)).1,
   ((producer_consumer_agree 0 cas_ok (fresh 64) (payload (fill 16 1)) 16 0 0 rfl
        (by decide) (by decide)).2 (by decide) (by decide)).2.2.2⟩

/-! ## C19: a payload size that wraps `unsigned int` -/

/-- C19 fails in the code: on a new ring of capacity 64 (`tail = 0`, effective
capacity 72) the enqueue of a payload of `2^32 - 8` bytes passes the
wraparound test, because `next_tail` is `0 + 8 + (2^32 - 8)` reduced to 0, and
returns `LQUEUE_OK` with `tail` still 0, although the slot it copied does not
end inside the buffer.  On a new ring of capacity `2^32` the enqueue of
`2^32 - 4` bytes returns `LQUEUE_OK` with `tail = 4`, although the slot leaves
no room for a header before the effective capacity `2^32 + 8`. -/
theorem accepted_payload_overruns :
    (fresh 64).tail + sizeof_header_t ≤ (fresh 64).size
    ∧ (lqueue_queue 1 cas_ok (fresh 64) (fun _ => 0) (2 ^ 32 - 8)).map
        (fun r => (r.1, r.2.tail)) = some (LQUEUE_OK, 0)
    ∧ ¬ ((fresh 64).tail + sizeof_header_t + (2 ^ 32 - 8) + sizeof_header_t
        ≤ (fresh 64).size)
    ∧ (fresh (2 ^ 32)).tail + sizeof_header_t ≤ (fresh (2 ^ 32)).size
    ∧ (lqueue_queue 1 cas_ok (fresh (2 ^ 32)) (fun _ => 0) (2 ^ 32 - 4)).map
        (fun r => (r.1, r.2.tail)) = some (LQUEUE_OK, 4)
    ∧ ¬ ((fresh (2 ^ 32)).tail + sizeof_header_t + (2 ^ 32 - 4) + sizeof_header_t
        ≤ (fresh (2 ^ 32)).size) := by
  decide

/-! ## C20: the depth of the recursion -/

/-- C20: for a payload with `2 * sizeof(header_t) + size` at most the
effective capacity, `lqueue_queue` returns after at most one nested
invocation (two units of fuel give a result, and more fuel gives the same
result); the nested invocation, if any, starts at `tail = 0` and does not take
the wraparound branch; the result is `LQUEUE_OK`, the full status or
`LQUEUE_CAS`. -/
theorem recursion_bounded (cas : Nat → Bool) (q : lqueue_t) (v : Nat → Byte) (size : Nat)
    (hfit : 2 * sizeof_header_t + size ≤ q.size) :
    (∃ r, lqueue_queue 2 cas q v size = some r
        ∧ (r.1 = LQUEUE_OK ∨ r.1 = LQUEUE_FULL ∨ r.1 = LQUEUE_CAS)
        ∧ ∀ fuel, lqueue_queue (fuel + 2) cas q v size = some r)
    ∧ (wraps q size = false → ∀ fuel,
        lqueue_queue (fuel + 1) cas q v size = lqueue_queue 1 cas q v size)
    ∧ (with_sentinel q).tail = 0 ∧ wraps (with_sentinel q) size = false := by
  have h8 : sizeof_header_t = 8 := rfl
  have hw0 : wraps (with_sentinel q) size = false := by
    simp only [wraps, decide_eq_false_iff_not, not_lt]
    show (0 + sizeof_header_t + size) % 2 ^ 32 + sizeof_header_t ≤ q.size
    have : (0 + sizeof_header_t + size) % 2 ^ 32 ≤ 0 + sizeof_header_t + size :=
      Nat.mod_le _ _
    omega
  have one : ∀ (c : Nat → Bool) (p : lqueue_t), wraps p size = false → ∃ r,
      (r.1 = LQUEUE_OK ∨ r.1 = LQUEUE_FULL ∨ r.1 = LQUEUE_CAS)
      ∧ ∀ fuel, lqueue_queue (fuel + 1) c p v size = some r := by
    intro c p hwp
    cases hc : c 0
    · exact ⟨(LQUEUE_CAS, p), Or.inr (Or.inr rfl),
        fun fuel => queue_cas_fail fuel c p v size hc⟩
    · cases hl : live p.buffer p.tail
      · exact ⟨(LQUEUE_OK, with_slot p v size), Or.inl rfl,
          fun fuel => queue_ok fuel c p v size hc hwp hl⟩
      · exact ⟨(LQUEUE_FULL, p), Or.inr (Or.inl rfl),
          fun fuel => queue_full fuel c p v size hc hwp hl⟩
  refine ⟨?_, ?_, rfl, hw0⟩
  · cases hw : wraps q size
    · obtain ⟨r, hr, hf⟩ := one cas q hw
      exact ⟨r, hf 1, hr, fun fuel => hf (fuel + 1)⟩
    · cases hc : cas 0
      · exact ⟨(LQUEUE_CAS, q), queue_cas_fail 1 cas q v size hc, Or.inr (Or.inr rfl),
          fun fuel => queue_cas_fail (fuel + 1) cas q v size hc⟩
      · obtain ⟨r, hr, hf⟩ := one (fun i => cas (i + 1)) (with_sentinel q) hw0
        refine ⟨r, ?_, hr, fun fuel => ?_⟩
        · rw [queue_wrap 1 cas q v size hc hw]; exact hf 0
        · rw [queue_wrap (fuel + 1) cas q v size hc hw]; exact hf fuel
  · intro hw fuel
    obtain ⟨r, _, hf⟩ := one cas q hw
    rw [hf fuel, hf 0]

/-- C20 on `two_slots`: the enqueue of 16 bytes at `tail = 48` returns within
one nested invocation, which starts at `tail = 0` and does not wrap around. -/
theorem recursion_bounded_witness :
    (lqueue_queue 2 cas_ok two_slots (payload (fill 16 3)) 16).isSome = true
    ∧ (with_sentinel two_slots).tail = 0
    ∧ wraps (with_sentinel two_slots) 16 = false :=
  (fun h => ⟨h.1.elim (fun _ hr => by rw [hr.1]; rfl), h.2.2⟩)
    (recursion_bounded cas_ok two_slots (payload (fill 16 3)) 16 (by decide))

end LQueue
